import Mathlib

/-!
Verification of the crop-selection pipeline (`batch_process_images.py`,
`compare_ssim.py`, `crop_model4.py`, `crop_model8.py`).

Shallow embedding conventions:
* Python strings are modelled as `List Char` (a Python `str` is a sequence of
  code points); `strLe` is Python's lexicographic `<=` used by `sorted`,
  `replaceAll` is `str.replace` (all non-overlapping occurrences, left to
  right), `stripChars` is `str.strip`, and `parsePyInt` models `int(...)`
  on a decimal literal with optional sign (Python's underscore-digit
  grouping is not modelled; it never yields a value in 1..7 for any
  identifier of interest here).
* Images are pixel grids of 8-bit values idealised as `ℕ`:
  `Mat := List (List (ℕ × ℕ × ℕ))` is a decoded `cv2.imread` result
  (rows × cols of BGR pixels; `imread` always yields 3 channels), while
  `Img := List (List (List ℕ))` is an image with an arbitrary channel
  count, as consumed by `compare_ssim.compute_ssim` via `cv2.split`.
* Floating point arithmetic is idealised over `ℚ`.
* Fallible steps return `Option`/`Except`; filesystem effects of the
  selector (temp-file creation and deletion) are threaded explicitly, with
  `removeOk : List Char → Bool` modelling whether `os.remove` succeeds on
  a given path.
-/

namespace CropId

/-! ## Python string model -/

/-- A Python `str`: a sequence of code points. -/
abbrev Str := List Char

/-- Python's lexicographic string comparison `a <= b` (by code point),
as used by `sorted`. -/
def strLe : Str → Str → Bool
  | [], _ => true
  | _ :: _, [] => false
  | a :: s, b :: t =>
      if a.toNat < b.toNat then true
      else if b.toNat < a.toNat then false
      else strLe s t

theorem strLe_total : ∀ a b : Str, strLe a b = true ∨ strLe b a = true := by
  intro a
  induction a with
  | nil => intro b; left; rfl
  | cons c s ih =>
      intro b
      cases b with
      | nil => right; rfl
      | cons d t =>
          by_cases h1 : c.toNat < d.toNat
          · left; simp [strLe, h1]
          · by_cases h2 : d.toNat < c.toNat
            · right; simp [strLe, h2]
            · rcases ih t with h | h
              · left; simpa [strLe, h1, h2] using h
              · right; simpa [strLe, h1, h2] using h

theorem strLe_trans : ∀ a b c : Str,
    strLe a b = true → strLe b c = true → strLe a c = true := by
  intro a
  induction a with
  | nil => intro b c _ _; rfl
  | cons x s ih =>
      intro b c hab hbc
      cases b with
      | nil => simp [strLe] at hab
      | cons y t =>
          cases c with
          | nil => simp [strLe] at hbc
          | cons z u =>
              simp only [strLe] at hab hbc ⊢
              by_cases hxy : x.toNat < y.toNat
              · by_cases hyz : y.toNat < z.toNat
                · have : x.toNat < z.toNat := Nat.lt_trans hxy hyz
                  simp [this]
                · by_cases hzy : z.toNat < y.toNat
                  · simp [hxy, hyz, hzy] at hbc
                  · have hyz' : y.toNat = z.toNat := Nat.le_antisymm
                      (Nat.le_of_not_lt hzy) (Nat.le_of_not_lt hyz)
                    have : x.toNat < z.toNat := hyz' ▸ hxy
                    simp [this]
              · by_cases hyx : y.toNat < x.toNat
                · simp [hxy, hyx] at hab
                · have hxy' : x.toNat = y.toNat := Nat.le_antisymm
                    (Nat.le_of_not_lt hyx) (Nat.le_of_not_lt hxy)
                  by_cases hyz : y.toNat < z.toNat
                  · have : x.toNat < z.toNat := hxy' ▸ hyz
                    simp [this]
                  · by_cases hzy : z.toNat < y.toNat
                    · simp [hxy, hyx, hyz, hzy] at hbc
                    · have hxz : ¬ x.toNat < z.toNat := by omega
                      have hzx : ¬ z.toNat < x.toNat := by omega
                      simp only [hxy, hyx, if_neg, ite_false] at hab
                      simp only [hyz, hzy, if_neg, ite_false] at hbc
                      simp only [hxz, hzx, if_neg, ite_false]
                      exact ih t u (by simpa using hab) (by simpa using hbc)

instance : IsTotal Str (fun a b => strLe a b = true) := ⟨strLe_total⟩

instance : IsTrans Str (fun a b => strLe a b = true) := ⟨fun a b c => strLe_trans a b c⟩

/-- One step of Python `str.replace`: with nonempty pattern `p :: pat`,
replace all non-overlapping occurrences left to right.  `fuel` bounds the
recursion (the input length suffices). -/
def replaceAllAux (p : Char) (pat rep : Str) : ℕ → Str → Str
  | 0, s => s
  | _ + 1, [] => []
  | fuel + 1, c :: rest =>
      if (p :: pat).isPrefixOf (c :: rest) then
        rep ++ replaceAllAux p pat rep fuel (rest.drop pat.length)
      else
        c :: replaceAllAux p pat rep fuel rest

/-- Python `s.replace(pat, rep)` (for the nonempty patterns used by the
pipeline; an empty pattern returns `s` unchanged). -/
def replaceAll (pat rep s : Str) : Str :=
  match pat with
  | [] => s
  | p :: pt => replaceAllAux p pt rep s.length s

/-- Python whitespace test for `str.strip` (ASCII whitespace). -/
def isWs (c : Char) : Bool := c.toNat = 32 || (9 ≤ c.toNat && c.toNat ≤ 13)

/-- Python `str.strip()`. -/
def stripChars (s : Str) : Str :=
  ((s.dropWhile isWs).reverse.dropWhile isWs).reverse

/-- Accumulating decimal parse: `none` until at least one digit was seen,
failing on the first non-digit. -/
def parseDigits : Str → Option ℕ → Option ℕ
  | [], acc => acc
  | c :: rest, acc =>
      if 48 ≤ c.toNat ∧ c.toNat ≤ 57 then
        parseDigits rest (some ((acc.getD 0) * 10 + (c.toNat - 48)))
      else none

/-- Python `int(str(x).strip())` on a signed decimal literal: `none` models
the `ValueError` caught by `_di_type_from_model`. -/
def parsePyInt (s : Str) : Option ℤ :=
  match stripChars s with
  | '-' :: rest => (parseDigits rest none).map fun n => -(n : ℤ)
  | '+' :: rest => (parseDigits rest none).map fun n => (n : ℤ)
  | t => (parseDigits t none).map fun n => (n : ℤ)

/-! ## SSIM core

`skimage.metrics.structural_similarity(gray1, gray2, data_range=255)` with
default settings: 7×7 uniform windows, `K1 = 0.01`, `K2 = 0.03`, sample
covariance normalisation `NP/(NP-1) = 49/48`.  A window is a list of 49
paired pixel values; the local statistics below are exactly skimage's
`ux, uy, vx, vy, vxy` and the per-window score is
`A1*A2 / (B1*B2)`.  The final score is the mean of the per-window scores
over all fully-interior windows (skimage computes `S` everywhere and then
crops by `pad = 3`, which leaves exactly the fully-interior windows). -/

/-- The `C1 = (K1 * data_range)^2` with `K1 = 0.01`, `data_range = 255`. -/
def ssimC1 : ℚ := ((1 / 100) * 255) ^ 2

/-- The `C2 = (K2 * data_range)^2` with `K2 = 0.03`. -/
def ssimC2 : ℚ := ((3 / 100) * 255) ^ 2

/-- Sum of the first components of a window's pixel pairs. -/
def sfst (p : List (ℚ × ℚ)) : ℚ := (p.map fun q => q.1).sum

/-- Sum of the second components. -/
def ssnd (p : List (ℚ × ℚ)) : ℚ := (p.map fun q => q.2).sum

/-- Sum of squared first components. -/
def sff (p : List (ℚ × ℚ)) : ℚ := (p.map fun q => q.1 * q.1).sum

/-- Sum of squared second components. -/
def sss (p : List (ℚ × ℚ)) : ℚ := (p.map fun q => q.2 * q.2).sum

/-- Sum of products of the paired components. -/
def sfs (p : List (ℚ × ℚ)) : ℚ := (p.map fun q => q.1 * q.2).sum

/-- Local mean of the first image over a 7×7 window (`ux`). -/
def ux (p : List (ℚ × ℚ)) : ℚ := sfst p / 49

/-- Local mean of the second image (`uy`). -/
def uy (p : List (ℚ × ℚ)) : ℚ := ssnd p / 49

/-- Local sample variance of the first image (`vx = cov_norm * (uxx - ux*ux)`). -/
def vx (p : List (ℚ × ℚ)) : ℚ := (49 / 48) * (sff p / 49 - ux p * ux p)

/-- Local sample variance of the second image. -/
def vy (p : List (ℚ × ℚ)) : ℚ := (49 / 48) * (sss p / 49 - uy p * uy p)

/-- Local sample covariance (`vxy = cov_norm * (uxy - ux*uy)`). -/
def vxy (p : List (ℚ × ℚ)) : ℚ := (49 / 48) * (sfs p / 49 - ux p * uy p)

/-- Per-window SSIM value `(A1*A2)/(B1*B2)`. -/
def ssimWin (p : List (ℚ × ℚ)) : ℚ :=
  ((2 * ux p * uy p + ssimC1) * (2 * vxy p + ssimC2)) /
    ((ux p * ux p + uy p * uy p + ssimC1) * (vx p + vy p + ssimC2))

/-- Cauchy–Schwarz for list sums: `(∑ x)² ≤ n * ∑ x²`. -/
theorem list_sq_sum_le (l : List ℚ) :
    l.sum * l.sum ≤ (l.length : ℚ) * (l.map fun x => x * x).sum := by
  induction l with
  | nil => simp
  | cons a l ih =>
      have hT : 0 ≤ (l.map fun x => x * x).sum := by
        apply List.sum_nonneg
        intro x hx
        obtain ⟨y, _, rfl⟩ := List.mem_map.mp hx
        exact mul_self_nonneg y
      rcases Nat.eq_zero_or_pos l.length with h0 | hpos
      · rw [List.length_eq_zero] at h0
        subst h0
        simp only [List.sum_cons, List.sum_nil, List.map_cons, List.map_nil,
          List.length_cons, List.length_nil]
        push_cast
        nlinarith [sq_nonneg a]
      · have hn : (0 : ℚ) < l.length := by exact_mod_cast hpos
        simp only [List.sum_cons, List.map_cons, List.length_cons]
        push_cast
        nlinarith [sq_nonneg ((l.length : ℚ) * a - l.sum), ih, hT, hn]

theorem sfst_nonneg (p : List (ℚ × ℚ)) (hnn : ∀ q ∈ p, 0 ≤ q.1 ∧ 0 ≤ q.2) :
    0 ≤ sfst p := by
  apply List.sum_nonneg
  intro x hx
  obtain ⟨q, hq, rfl⟩ := List.mem_map.mp hx
  exact (hnn q hq).1

theorem ssnd_nonneg (p : List (ℚ × ℚ)) (hnn : ∀ q ∈ p, 0 ≤ q.1 ∧ 0 ≤ q.2) :
    0 ≤ ssnd p := by
  apply List.sum_nonneg
  intro x hx
  obtain ⟨q, hq, rfl⟩ := List.mem_map.mp hx
  exact (hnn q hq).2

theorem sq_sfst_le (p : List (ℚ × ℚ)) (hlen : p.length = 49) :
    sfst p * sfst p ≤ 49 * sff p := by
  have h := list_sq_sum_le (p.map fun q => q.1)
  simp only [List.length_map, List.map_map, hlen] at h
  have heq : ((p.map fun q => q.1).map fun x => x * x) = p.map fun q => q.1 * q.1 := by
    simp [List.map_map]
  simpa [sfst, sff, heq, List.map_map, Function.comp] using h

theorem sq_ssnd_le (p : List (ℚ × ℚ)) (hlen : p.length = 49) :
    ssnd p * ssnd p ≤ 49 * sss p := by
  have h := list_sq_sum_le (p.map fun q => q.2)
  simp only [List.length_map, List.map_map, hlen] at h
  simpa [ssnd, sss, List.map_map, Function.comp] using h

theorem sum_map_fst_add_snd (p : List (ℚ × ℚ)) :
    (p.map fun q => q.1 + q.2).sum = sfst p + ssnd p := by
  induction p with
  | nil => simp [sfst, ssnd]
  | cons q p ih => simp only [List.map_cons, List.sum_cons, sfst, ssnd] at ih ⊢; linarith

theorem sum_map_fst_sub_snd (p : List (ℚ × ℚ)) :
    (p.map fun q => q.1 - q.2).sum = sfst p - ssnd p := by
  induction p with
  | nil => simp [sfst, ssnd]
  | cons q p ih => simp only [List.map_cons, List.sum_cons, sfst, ssnd] at ih ⊢; linarith

theorem sum_map_add_sq (p : List (ℚ × ℚ)) :
    (p.map fun q => (q.1 + q.2) * (q.1 + q.2)).sum = sff p + 2 * sfs p + sss p := by
  induction p with
  | nil => simp [sff, sfs, sss]
  | cons q p ih =>
      simp only [List.map_cons, List.sum_cons, sff, sfs, sss] at ih ⊢
      nlinarith [ih]

theorem sum_map_sub_sq (p : List (ℚ × ℚ)) :
    (p.map fun q => (q.1 - q.2) * (q.1 - q.2)).sum = sff p - 2 * sfs p + sss p := by
  induction p with
  | nil => simp [sff, sfs, sss]
  | cons q p ih =>
      simp only [List.map_cons, List.sum_cons, sff, sfs, sss] at ih ⊢
      nlinarith [ih]

theorem sum_add_sq_le (p : List (ℚ × ℚ)) (hlen : p.length = 49) :
    (sfst p + ssnd p) * (sfst p + ssnd p) ≤ 49 * (sff p + 2 * sfs p + sss p) := by
  have h := list_sq_sum_le (p.map fun q => q.1 + q.2)
  rw [List.map_map] at h
  have hcomp : ((fun x => x * x) ∘ fun q : ℚ × ℚ => q.1 + q.2)
      = fun q : ℚ × ℚ => (q.1 + q.2) * (q.1 + q.2) := rfl
  rw [hcomp, sum_map_fst_add_snd, sum_map_add_sq, List.length_map, hlen] at h
  push_cast at h
  exact h

theorem sum_sub_sq_le (p : List (ℚ × ℚ)) (hlen : p.length = 49) :
    (sfst p - ssnd p) * (sfst p - ssnd p) ≤ 49 * (sff p - 2 * sfs p + sss p) := by
  have h := list_sq_sum_le (p.map fun q => q.1 - q.2)
  rw [List.map_map] at h
  have hcomp : ((fun x => x * x) ∘ fun q : ℚ × ℚ => q.1 - q.2)
      = fun q : ℚ × ℚ => (q.1 - q.2) * (q.1 - q.2) := rfl
  rw [hcomp, sum_map_fst_sub_snd, sum_map_sub_sq, List.length_map, hlen] at h
  push_cast at h
  exact h

theorem vx_nonneg (p : List (ℚ × ℚ)) (hlen : p.length = 49) : 0 ≤ vx p := by
  have h := sq_sfst_le p hlen
  unfold vx ux
  nlinarith [h]

theorem vy_nonneg (p : List (ℚ × ℚ)) (hlen : p.length = 49) : 0 ≤ vy p := by
  have h := sq_ssnd_le p hlen
  unfold vy uy
  nlinarith [h]

theorem cov_sum_nonneg (p : List (ℚ × ℚ)) (hlen : p.length = 49) :
    0 ≤ vx p + vy p + 2 * vxy p := by
  have h := sum_add_sq_le p hlen
  unfold vx vy vxy ux uy
  nlinarith [h]

theorem cov_diff_nonneg (p : List (ℚ × ℚ)) (hlen : p.length = 49) :
    0 ≤ vx p + vy p - 2 * vxy p := by
  have h := sum_sub_sq_le p hlen
  unfold vx vy vxy ux uy
  nlinarith [h]

/-- Every 7×7 window of nonnegative pixel data has SSIM strictly above `-1`:
with the stabilising constants `C1, C2 > 0` the value `-1` is unattainable.
This is what makes the `best_score = -1.0` / `score > best_score` sentinel
in `_find_best_crop` sound. -/
theorem ssimWin_gt_neg_one (p : List (ℚ × ℚ)) (hlen : p.length = 49)
    (hnn : ∀ q ∈ p, 0 ≤ q.1 ∧ 0 ≤ q.2) : -1 < ssimWin p := by
  have hux : 0 ≤ ux p := by
    unfold ux; exact div_nonneg (sfst_nonneg p hnn) (by norm_num)
  have huy : 0 ≤ uy p := by
    unfold uy; exact div_nonneg (ssnd_nonneg p hnn) (by norm_num)
  have hc1 : (0 : ℚ) < ssimC1 := by norm_num [ssimC1]
  have hc2 : (0 : ℚ) < ssimC2 := by norm_num [ssimC2]
  have hvx := vx_nonneg p hlen
  have hvy := vy_nonneg p hlen
  have hsum := cov_sum_nonneg p hlen
  have hdiff := cov_diff_nonneg p hlen
  have hA1 : 0 < 2 * ux p * uy p + ssimC1 := by nlinarith [mul_nonneg hux huy]
  have hA1B1 : 2 * ux p * uy p + ssimC1 ≤ ux p * ux p + uy p * uy p + ssimC1 := by
    nlinarith [sq_nonneg (ux p - uy p)]
  have hB1 : 0 < ux p * ux p + uy p * uy p + ssimC1 := by
    nlinarith [mul_self_nonneg (ux p), mul_self_nonneg (uy p)]
  have hB2 : 0 < vx p + vy p + ssimC2 := by nlinarith
  have hA2B2 : 0 < (2 * vxy p + ssimC2) + (vx p + vy p + ssimC2) := by nlinarith
  unfold ssimWin
  rw [lt_div_iff (mul_pos hB1 hB2)]
  rcases le_or_lt 0 (2 * vxy p + ssimC2) with hA2 | hA2
  · nlinarith [mul_nonneg (le_of_lt hA1) hA2, mul_pos hB1 hB2]
  · have h1 : (ux p * ux p + uy p * uy p + ssimC1) * (2 * vxy p + ssimC2)
        ≤ (2 * ux p * uy p + ssimC1) * (2 * vxy p + ssimC2) :=
      mul_le_mul_of_nonpos_right hA1B1 (le_of_lt hA2)
    nlinarith [mul_pos hB1 hA2B2]

/-- Swapping the two images swaps the roles of the window statistics and
leaves the per-window SSIM unchanged. -/
theorem ssimWin_swap (p : List (ℚ × ℚ)) : ssimWin (p.map Prod.swap) = ssimWin p := by
  have hfst : sfst (p.map Prod.swap) = ssnd p := by
    simp only [sfst, ssnd, List.map_map]; rfl
  have hsnd : ssnd (p.map Prod.swap) = sfst p := by
    simp only [sfst, ssnd, List.map_map]; rfl
  have hff : sff (p.map Prod.swap) = sss p := by
    simp only [sff, sss, List.map_map]; rfl
  have hss : sss (p.map Prod.swap) = sff p := by
    simp only [sff, sss, List.map_map]; rfl
  have hfs : sfs (p.map Prod.swap) = sfs p := by
    simp only [sfs, List.map_map]
    exact congrArg List.sum (List.map_congr_left fun q _ => mul_comm q.2 q.1)
  unfold ssimWin vx vy vxy ux uy
  rw [hfst, hsnd, hff, hss, hfs]
  ring

/-- A nonempty list of values all above `-1` has mean above `-1`. -/
theorem mean_gt_neg_one (l : List ℚ) (hne : l ≠ [])
    (h : ∀ x ∈ l, -1 < x) : -1 < l.sum / (l.length : ℚ) := by
  have hweak : ∀ m : List ℚ, (∀ x ∈ m, -1 < x) → -(m.length : ℚ) ≤ m.sum := by
    intro m hm
    induction m with
    | nil => simp
    | cons a m ih =>
        have ha := hm a (List.mem_cons_self a m)
        have := ih fun x hx => hm x (List.mem_cons_of_mem a hx)
        simp only [List.sum_cons, List.length_cons]
        push_cast
        linarith
  obtain ⟨a, m, rfl⟩ := List.exists_cons_of_ne_nil hne
  have ha := h a (List.mem_cons_self a m)
  have hm := hweak m fun x hx => h x (List.mem_cons_of_mem a hx)
  have hlen : (0 : ℚ) < ((a :: m).length : ℚ) := by
    simp only [List.length_cons]
    push_cast
    positivity
  rw [lt_div_iff hlen]
  simp only [List.sum_cons, List.length_cons]
  push_cast
  linarith

/-! ## Grayscale images and the full SSIM computation -/

/-- A single-channel image: rows of 8-bit pixel values. -/
abbrev GrayMat := List (List ℕ)

/-- A decoded `cv2.imread` result: rows of BGR pixels (always 3 channels). -/
abbrev Mat := List (List (ℕ × ℕ × ℕ))

def grayRows (g : GrayMat) : ℕ := g.length

def grayCols (g : GrayMat) : ℕ := (g.headD []).length

/-- The flattened 7×7 pixel window with top-left corner `(i, j)`
(out-of-range accesses default to `0`; they never occur for the windows
enumerated by `windows`). -/
def windowAt (g : GrayMat) (i j : ℕ) : List ℚ :=
  ((List.range 7).map fun di =>
    (List.range 7).map fun dj => (((g.getD (i + di) []).getD (j + dj) 0 : ℕ) : ℚ)).flatten

/-- All fully-interior 7×7 windows in row-major order — exactly the
positions skimage keeps after cropping the local SSIM map by `pad = 3`. -/
def windows (g : GrayMat) : List (List ℚ) :=
  ((List.range (grayRows g - 6)).map fun i =>
    (List.range (grayCols g - 6)).map fun j => windowAt g i j).flatten

/-- Per-window scores for a pair of equally-sized grayscale images. -/
def winScores (ga gb : GrayMat) : List ℚ :=
  ((windows ga).zip (windows gb)).map fun w => ssimWin (w.1.zip w.2)

/-- The `structural_similarity(ga, gb, data_range=255)`: the mean of the
per-window SSIM values (`mssim`). -/
def ssimPair (ga gb : GrayMat) : ℚ :=
  (winScores ga gb).sum / ((winScores ga gb).length : ℚ)

/-- Error taxonomy of the scorer: skimage's "Input images must have the
same dimensions" (`dimensionError`), skimage's "win_size exceeds image
extent" (`windowError`), `cv2.cvtColor` on a non-3-channel input
(`channelError`), and Python's `ZeroDivisionError` on `sum([])/0`
(`emptyChannels`). -/
inductive CmpError
  | dimensionError
  | windowError
  | channelError
  | emptyChannels
  deriving DecidableEq

/-- The `skimage.metrics.structural_similarity` on two grayscale images:
checks shape equality first, then that the 7×7 window fits, then returns
the mean SSIM. -/
def ssimExc (ga gb : GrayMat) : Except CmpError ℚ :=
  if (grayRows ga, grayCols ga) ≠ (grayRows gb, grayCols gb) then .error .dimensionError
  else if grayRows ga < 7 ∨ grayCols ga < 7 then .error .windowError
  else .ok (ssimPair ga gb)

theorem windowAt_length (g : GrayMat) (i j : ℕ) : (windowAt g i j).length = 49 := by
  unfold windowAt
  rw [List.length_flatten, List.map_map]
  have hconst : (List.length ∘ fun di =>
      List.map (fun dj => (((g.getD (i + di) []).getD (j + dj) 0 : ℕ) : ℚ)) (List.range 7))
      = fun _ : ℕ => 7 := by
    funext di; simp
  rw [hconst, List.map_const', List.sum_replicate]
  simp

theorem windowAt_nonneg (g : GrayMat) (i j : ℕ) : ∀ x ∈ windowAt g i j, 0 ≤ x := by
  intro x hx
  simp only [windowAt, List.mem_flatten, List.mem_map, List.mem_range] at hx
  obtain ⟨l, ⟨di, _, rfl⟩, hxl⟩ := hx
  obtain ⟨dj, _, rfl⟩ := List.mem_map.mp hxl
  exact Nat.cast_nonneg _

theorem mem_windows (g : GrayMat) (w : List ℚ) (hw : w ∈ windows g) :
    ∃ i j, w = windowAt g i j := by
  simp only [windows, List.mem_flatten, List.mem_map, List.mem_range] at hw
  obtain ⟨l, ⟨i, _, rfl⟩, hwl⟩ := hw
  obtain ⟨j, _, rfl⟩ := List.mem_map.mp hwl
  exact ⟨i, j, rfl⟩

theorem windows_length (g : GrayMat) :
    (windows g).length = (grayRows g - 6) * (grayCols g - 6) := by
  unfold windows
  rw [List.length_flatten, List.map_map]
  have hconst : (List.length ∘ fun i =>
      List.map (fun j => windowAt g i j) (List.range (grayCols g - 6)))
      = fun _ : ℕ => grayCols g - 6 := by
    funext i; simp
  rw [hconst, List.map_const', List.sum_replicate]
  simp [mul_comm]

/-- Each per-window score of a pair of ≥7×7 images of equal shape lies
strictly above `-1`. -/
theorem winScores_mem_gt (ga gb : GrayMat) (s : ℚ) (hs : s ∈ winScores ga gb) :
    -1 < s := by
  simp only [winScores, List.mem_map] at hs
  obtain ⟨w, hw, rfl⟩ := hs
  have hw1 := (List.of_mem_zip hw).1
  have hw2 := (List.of_mem_zip hw).2
  obtain ⟨i1, j1, h1⟩ := mem_windows ga w.1 hw1
  obtain ⟨i2, j2, h2⟩ := mem_windows gb w.2 hw2
  apply ssimWin_gt_neg_one
  · rw [List.length_zip, h1, h2, windowAt_length, windowAt_length]
    exact min_self 49
  · intro q hq
    obtain ⟨hqa, hqb⟩ := List.of_mem_zip hq
    exact ⟨windowAt_nonneg ga i1 j1 _ (h1 ▸ hqa), windowAt_nonneg gb i2 j2 _ (h2 ▸ hqb)⟩

theorem winScores_ne_nil (ga gb : GrayMat)
    (hshape : (grayRows ga, grayCols ga) = (grayRows gb, grayCols gb))
    (h7r : 7 ≤ grayRows ga) (h7c : 7 ≤ grayCols ga) : winScores ga gb ≠ [] := by
  have hr : grayRows gb = grayRows ga := (Prod.mk.injEq _ _ _ _ |>.mp hshape).1.symm
  have hc : grayCols gb = grayCols ga := (Prod.mk.injEq _ _ _ _ |>.mp hshape).2.symm
  have hlen : (winScores ga gb).length = (grayRows ga - 6) * (grayCols ga - 6) := by
    simp [winScores, List.length_zip, windows_length, hr, hc]
  intro hnil
  rw [hnil] at hlen
  simp only [List.length_nil] at hlen
  have h1 : 0 < grayRows ga - 6 := by omega
  have h2 : 0 < grayCols ga - 6 := by omega
  exact absurd hlen.symm (Nat.mul_ne_zero (by omega) (by omega))

theorem ssimPair_gt_neg_one (ga gb : GrayMat)
    (hshape : (grayRows ga, grayCols ga) = (grayRows gb, grayCols gb))
    (h7r : 7 ≤ grayRows ga) (h7c : 7 ≤ grayCols ga) : -1 < ssimPair ga gb :=
  mean_gt_neg_one _ (winScores_ne_nil ga gb hshape h7r h7c) (winScores_mem_gt ga gb)

/-- Any value actually returned by the SSIM scorer is strictly above `-1`. -/
theorem ssimExc_ok_gt (ga gb : GrayMat) (q : ℚ) (h : ssimExc ga gb = .ok q) :
    -1 < q := by
  unfold ssimExc at h
  split_ifs at h with h1 h2
  have hq : ssimPair ga gb = q := by injection h
  subst hq
  push_neg at h1
  rcases Nat.lt_or_ge (grayRows ga) 7 with hr | hr
  · exact absurd (Or.inl hr) h2
  · rcases Nat.lt_or_ge (grayCols ga) 7 with hc | hc
    · exact absurd (Or.inr hc) h2
    · exact ssimPair_gt_neg_one ga gb (by simpa using h1) hr hc

theorem winScores_comm (ga gb : GrayMat) : winScores ga gb = winScores gb ga := by
  unfold winScores
  have main : ∀ (l1 l2 : List (List ℚ)),
      ((l1.zip l2).map fun w => ssimWin (w.1.zip w.2))
        = ((l2.zip l1).map fun w => ssimWin (w.1.zip w.2)) := by
    intro l1
    induction l1 with
    | nil => intro l2; cases l2 <;> rfl
    | cons a t1 ih =>
        intro l2
        cases l2 with
        | nil => rfl
        | cons b t2 =>
            simp only [List.zip_cons_cons, List.map_cons]
            rw [ih t2]
            congr 1
            rw [← List.zip_swap b a, ssimWin_swap]
  exact main (windows ga) (windows gb)

theorem ssimPair_comm (ga gb : GrayMat) : ssimPair ga gb = ssimPair gb ga := by
  unfold ssimPair
  rw [winScores_comm]

/-- The `structural_similarity` is symmetric in its two image arguments. -/
theorem ssimExc_comm (ga gb : GrayMat) : ssimExc ga gb = ssimExc gb ga := by
  unfold ssimExc
  by_cases hd : (grayRows ga, grayCols ga) = (grayRows gb, grayCols gb)
  · have hr : grayRows gb = grayRows ga := (Prod.mk.injEq _ _ _ _ |>.mp hd).1.symm
    have hc : grayCols gb = grayCols ga := (Prod.mk.injEq _ _ _ _ |>.mp hd).2.symm
    rw [ssimPair_comm]
    simp [hd, hd.symm, hr, hc]
  · simp [hd, Ne.symm hd]

/-! ## BGR images, grayscale conversion, resizing, `_compare_ssim` -/

def matRows (m : Mat) : ℕ := m.length

def matCols (m : Mat) : ℕ := (m.headD []).length

/-- OpenCV's fixed-point `COLOR_BGR2GRAY`:
`Y = (4899*R + 9617*G + 1868*B + 8192) >> 14`. -/
def grayPx (px : ℕ × ℕ × ℕ) : ℕ :=
  (4899 * px.2.2 + 9617 * px.2.1 + 1868 * px.1 + 8192) / 16384

def toGrayM (m : Mat) : GrayMat := m.map fun row => row.map grayPx

/-- Interpolation tag passed to `cv2.resize`; the pipeline always passes
`cv2.INTER_AREA`. -/
inductive Interp
  | area
  deriving DecidableEq

/-- The `cv2.resize(m, (cols, rows), interpolation=...)`, modelled as index
subsampling.  The claims only depend on the output dimensions and on pixel
values being 8-bit naturals, not on the interpolation weights. -/
def resizeMat (_interp : Interp) (m : Mat) (rows cols : ℕ) : Mat :=
  (List.range rows).map fun i =>
    (List.range cols).map fun j =>
      (m.getD (i * matRows m / rows) []).getD (j * matCols m / cols) (0, 0, 0)

theorem toGrayM_rows (m : Mat) : grayRows (toGrayM m) = matRows m := by
  simp [toGrayM, grayRows, matRows]

theorem toGrayM_cols (m : Mat) : grayCols (toGrayM m) = matCols m := by
  cases m with
  | nil => rfl
  | cons r t => simp [toGrayM, grayCols, matCols]

theorem resizeMat_dims (it : Interp) (a b : Mat) :
    matRows (resizeMat it b (matRows a) (matCols a)) = matRows a ∧
      matCols (resizeMat it b (matRows a) (matCols a)) = matCols a := by
  cases a with
  | nil => simp [resizeMat, matRows, matCols]
  | cons r t =>
      constructor
      · simp [resizeMat, matRows]
      · simp [resizeMat, matRows, matCols, List.range_succ_eq_map]

/-- The second image as scored by `_compare_ssim`: resized (INTER_AREA) to
the first image's height/width when `resize` is set and the shapes differ. -/
def normImg2 (img1 img2 : Mat) (resize : Bool) : Mat :=
  if resize = true ∧ (matRows img1, matCols img1) ≠ (matRows img2, matCols img2)
  then resizeMat .area img2 (matRows img1) (matCols img1) else img2

/-- The `_compare_ssim(image1, image2, resize)` from `batch_process_images.py`
on two decoded images: optional resize normalisation, grayscale
conversion, then SSIM. -/
def compareSSIMb (img1 img2 : Mat) (resize : Bool) : Except CmpError ℚ :=
  ssimExc (toGrayM img1) (toGrayM (normImg2 img1 img2 resize))

theorem compareSSIMb_ok_gt (a b : Mat) (r : Bool) (q : ℚ)
    (h : compareSSIMb a b r = .ok q) : -1 < q :=
  ssimExc_ok_gt _ _ q h

/-- The `_compare_ssim` fails with the dimension-mismatch error exactly when
resizing is disabled and the shapes differ. -/
theorem compareSSIMb_dim_iff (a b : Mat) (r : Bool) :
    compareSSIMb a b r = .error .dimensionError ↔
      (r = false ∧ (matRows a, matCols a) ≠ (matRows b, matCols b)) := by
  unfold compareSSIMb normImg2
  by_cases hd : (matRows a, matCols a) = (matRows b, matCols b)
  · have hcond : ¬ (r = true ∧ (matRows a, matCols a) ≠ (matRows b, matCols b)) := by
      intro hcon; exact hcon.2 hd
    rw [if_neg hcond]
    unfold ssimExc
    have hshape : (grayRows (toGrayM a), grayCols (toGrayM a))
        = (grayRows (toGrayM b), grayCols (toGrayM b)) := by
      rw [toGrayM_rows, toGrayM_cols, toGrayM_rows, toGrayM_cols]; exact hd
    rw [if_neg (by simpa using hshape)]
    constructor
    · intro h
      split_ifs at h <;> simp at h
    · intro h
      exact absurd hd h.2
  · cases r with
    | false =>
        have hcond : ¬ ((false = true) ∧ (matRows a, matCols a) ≠ (matRows b, matCols b)) := by
          intro hcon; cases hcon.1
        rw [if_neg hcond]
        unfold ssimExc
        have hne : (grayRows (toGrayM a), grayCols (toGrayM a))
            ≠ (grayRows (toGrayM b), grayCols (toGrayM b)) := by
          rw [toGrayM_rows, toGrayM_cols, toGrayM_rows, toGrayM_cols]; exact hd
        rw [if_pos hne]
        exact ⟨fun _ => ⟨rfl, hd⟩, fun _ => rfl⟩
    | true =>
        rw [if_pos ⟨rfl, hd⟩]
        unfold ssimExc
        have hdims := resizeMat_dims Interp.area a b
        have hshape : (grayRows (toGrayM a), grayCols (toGrayM a))
            = (grayRows (toGrayM (resizeMat .area b (matRows a) (matCols a))),
               grayCols (toGrayM (resizeMat .area b (matRows a) (matCols a)))) := by
          rw [toGrayM_rows, toGrayM_cols, toGrayM_rows, toGrayM_cols, hdims.1, hdims.2]
        rw [if_neg (by simpa using hshape)]
        constructor
        · intro h
          split_ifs at h <;> simp at h
        · intro h
          cases h.1

/-! ## `compare_ssim.py`: variable-channel images and `compute_ssim` -/

/-- An image with an arbitrary channel count: rows × cols × channels. -/
abbrev Img := List (List (List ℕ))

def imgRows (A : Img) : ℕ := A.length

def imgCols (A : Img) : ℕ := (A.headD []).length

def imgChans (A : Img) : ℕ := ((A.headD []).headD []).length

/-- One channel plane, as produced by `cv2.split`. -/
def channelOf (A : Img) (k : ℕ) : GrayMat :=
  A.map fun row => row.map fun px => px.getD k 0

/-- The `cv2.split(A)`: the list of channel planes. -/
def splitImg (A : Img) : List GrayMat := (List.range (imgChans A)).map (channelOf A)

/-- The `to_gray` (`cv2.cvtColor(.., COLOR_BGR2GRAY)`): requires a 3-channel
input, else `cv2.error`. -/
def toGrayImg (A : Img) : Except CmpError GrayMat :=
  if imgChans A = 3 then
    .ok (A.map fun row => row.map fun px => grayPx (px.getD 0 0, px.getD 1 0, px.getD 2 0))
  else .error .channelError

/-- The per-channel scoring loop of `compute_ssim` in colour mode: the
first failing `ssim` call propagates its exception. -/
def scoreChannels : List (GrayMat × GrayMat) → Except CmpError (List ℚ)
  | [] => .ok []
  | pr :: rest =>
      match ssimExc pr.1 pr.2 with
      | .error e => .error e
      | .ok s =>
          match scoreChannels rest with
          | .error e => .error e
          | .ok ss => .ok (s :: ss)

/-- The `compute_ssim(img_a, img_b, use_color)` from `compare_ssim.py`:
colour mode zips the two channel lists (silently truncating to the common
channels) and averages the per-channel scores (`sum(scores)/len(scores)`,
which raises `ZeroDivisionError` on an empty zip); grayscale mode converts
both images and scores once. -/
def computeSSIM (useColor : Bool) (A B : Img) : Except CmpError ℚ :=
  if useColor then
    match scoreChannels ((splitImg A).zip (splitImg B)) with
    | .error e => .error e
    | .ok scores =>
        if scores.length = 0 then .error .emptyChannels
        else .ok (scores.sum / (scores.length : ℚ))
  else
    match toGrayImg A with
    | .error e => .error e
    | .ok ga =>
        match toGrayImg B with
        | .error e => .error e
        | .ok gb => ssimExc ga gb

/-- The `cv2.resize` on a variable-channel image (same modelling as
`resizeMat`). -/
def resizeImgA (_interp : Interp) (A : Img) (rows cols : ℕ) : Img :=
  (List.range rows).map fun i =>
    (List.range cols).map fun j =>
      (A.getD (i * imgRows A / rows) []).getD (j * imgCols A / cols) []

/-- One iteration of the per-mask loop in `compare_ssim.main` (lines
75–99): raise the size-mismatch `ValueError` when `--resize` is off,
otherwise resize the cropped image (INTER_AREA) to the mask's shape, then
`compute_ssim(mask, comp, use_color)`. -/
def mainMaskStep (cropped mask : Img) (resizeFlag colorFlag : Bool) : Except CmpError ℚ :=
  if (imgRows mask, imgCols mask) ≠ (imgRows cropped, imgCols cropped) then
    if resizeFlag = false then .error .dimensionError
    else computeSSIM colorFlag mask (resizeImgA .area cropped (imgRows mask) (imgCols mask))
  else computeSSIM colorFlag mask cropped

theorem channelOf_rows (A : Img) (k : ℕ) : grayRows (channelOf A k) = imgRows A := by
  simp [channelOf, grayRows, imgRows]

theorem channelOf_cols (A : Img) (k : ℕ) : grayCols (channelOf A k) = imgCols A := by
  cases A with
  | nil => rfl
  | cons r t => simp [channelOf, grayCols, imgCols]

theorem splitImg_length (A : Img) : (splitImg A).length = imgChans A := by
  simp [splitImg]

theorem mem_splitImg (A : Img) (g : GrayMat) (h : g ∈ splitImg A) :
    ∃ k, g = channelOf A k := by
  obtain ⟨k, _, rfl⟩ := List.mem_map.mp h
  exact ⟨k, rfl⟩

theorem toGrayImg_error (A : Img) (e : CmpError) (h : toGrayImg A = .error e) :
    e = .channelError := by
  unfold toGrayImg at h
  split_ifs at h
  injection h with h
  exact h.symm

theorem toGrayImg_dims (A : Img) (g : GrayMat) (h : toGrayImg A = .ok g) :
    grayRows g = imgRows A ∧ grayCols g = imgCols A := by
  unfold toGrayImg at h
  split_ifs at h
  injection h with h
  subst h
  constructor
  · simp [grayRows, imgRows]
  · cases A with
    | nil => rfl
    | cons r t => simp [grayCols, imgCols]

theorem ssimExc_eqdims_error (x y : GrayMat) (e : CmpError)
    (hd : (grayRows x, grayCols x) = (grayRows y, grayCols y))
    (h : ssimExc x y = .error e) : e = .windowError := by
  unfold ssimExc at h
  rw [if_neg (by simpa using hd)] at h
  split_ifs at h
  injection h with h
  exact h.symm

theorem scoreChannels_comm (l1 l2 : List GrayMat) :
    scoreChannels (l1.zip l2) = scoreChannels (l2.zip l1) := by
  induction l1 generalizing l2 with
  | nil => cases l2 <;> rfl
  | cons a t1 ih =>
      cases l2 with
      | nil => rfl
      | cons b t2 =>
          rw [List.zip_cons_cons, List.zip_cons_cons]
          simp only [scoreChannels]
          rw [ssimExc_comm b a, ih t2]

theorem scoreChannels_eqdims_error (pairs : List (GrayMat × GrayMat)) (e : CmpError)
    (hd : ∀ pr ∈ pairs, (grayRows pr.1, grayCols pr.1) = (grayRows pr.2, grayCols pr.2))
    (h : scoreChannels pairs = .error e) : e = .windowError := by
  induction pairs with
  | nil => simp [scoreChannels] at h
  | cons pr rest ih =>
      simp only [scoreChannels] at h
      cases hse : ssimExc pr.1 pr.2 with
      | error e1 =>
          rw [hse] at h
          injection h with h
          subst h
          exact ssimExc_eqdims_error pr.1 pr.2 _ (hd pr (List.mem_cons_self pr rest)) hse
      | ok s =>
          rw [hse] at h
          cases hsc : scoreChannels rest with
          | error e2 =>
              rw [hsc] at h
              injection h with h
              subst h
              exact ih (fun q hq => hd q (List.mem_cons_of_mem pr hq)) hsc
          | ok ss => rw [hsc] at h; cases h

theorem scoreChannels_ok_of (pairs : List (GrayMat × GrayMat))
    (h : ∀ pr ∈ pairs, ssimExc pr.1 pr.2 = .ok (ssimPair pr.1 pr.2)) :
    scoreChannels pairs = .ok (pairs.map fun pr => ssimPair pr.1 pr.2) := by
  induction pairs with
  | nil => rfl
  | cons pr rest ih =>
      simp only [scoreChannels, List.map_cons]
      rw [h pr (List.mem_cons_self pr rest), ih fun q hq => h q (List.mem_cons_of_mem pr hq)]

/-- The `compute_ssim` is symmetric in its two images for either mode. -/
theorem computeSSIM_comm (c : Bool) (A B : Img) :
    computeSSIM c A B = computeSSIM c B A := by
  unfold computeSSIM
  cases c with
  | true =>
      simp only [if_pos]
      rw [scoreChannels_comm (splitImg A) (splitImg B)]
  | false =>
      simp only [Bool.false_eq_true, if_neg, ite_false]
      cases hA : toGrayImg A with
      | error eA =>
          have := toGrayImg_error A eA hA
          subst this
          cases hB : toGrayImg B with
          | error eB =>
              have := toGrayImg_error B eB hB
              subst this
              rfl
          | ok gb => rfl
      | ok ga =>
          cases hB : toGrayImg B with
          | error eB => rfl
          | ok gb => exact ssimExc_comm ga gb

/-- When the two images agree on height and width, `compute_ssim` never
raises the dimension-mismatch error (in either mode). -/
theorem computeSSIM_eqdims_ne_dim (c : Bool) (A B : Img)
    (hd : (imgRows A, imgCols A) = (imgRows B, imgCols B)) :
    computeSSIM c A B ≠ .error .dimensionError := by
  unfold computeSSIM
  cases c with
  | true =>
      simp only [if_pos]
      intro h
      cases hsc : scoreChannels ((splitImg A).zip (splitImg B)) with
      | error e =>
          rw [hsc] at h
          injection h with h
          have : e = .windowError := by
            apply scoreChannels_eqdims_error _ e _ hsc
            intro pr hpr
            obtain ⟨h1, h2⟩ := List.of_mem_zip hpr
            obtain ⟨k1, hk1⟩ := mem_splitImg A pr.1 h1
            obtain ⟨k2, hk2⟩ := mem_splitImg B pr.2 h2
            rw [hk1, hk2, channelOf_rows, channelOf_cols, channelOf_rows, channelOf_cols]
            exact hd
          rw [this] at h
          cases h
      | ok scores =>
          rw [hsc] at h
          dsimp only at h
          split_ifs at h
          all_goals simp at h
  | false =>
      simp only [Bool.false_eq_true, if_neg, ite_false]
      intro h
      cases hA : toGrayImg A with
      | error eA =>
          rw [hA] at h
          injection h with h
          have := toGrayImg_error A eA hA
          rw [this] at h
          cases h
      | ok ga =>
          rw [hA] at h
          cases hB : toGrayImg B with
          | error eB =>
              rw [hB] at h
              injection h with h
              have := toGrayImg_error B eB hB
              rw [this] at h
              cases h
          | ok gb =>
              rw [hB] at h
              have hga := toGrayImg_dims A ga hA
              have hgb := toGrayImg_dims B gb hB
              have : (grayRows ga, grayCols ga) = (grayRows gb, grayCols gb) := by
                rw [hga.1, hga.2, hgb.1, hgb.2]; exact hd
              have := ssimExc_eqdims_error ga gb _ this h
              cases this

theorem resizeImgA_dims (it : Interp) (A mask : Img) :
    imgRows (resizeImgA it A (imgRows mask) (imgCols mask)) = imgRows mask ∧
      imgCols (resizeImgA it A (imgRows mask) (imgCols mask)) = imgCols mask := by
  cases mask with
  | nil => simp [resizeImgA, imgRows, imgCols]
  | cons r t =>
      constructor
      · simp [resizeImgA, imgRows]
      · simp [resizeImgA, imgRows, imgCols, List.range_succ_eq_map]

/-- The per-mask scoring step of `compare_ssim.main` raises the explicit
size-mismatch `ValueError` exactly when `--resize` is off and the shapes
differ. -/
theorem mainMaskStep_dim_iff (cropped mask : Img) (rf cf : Bool) :
    mainMaskStep cropped mask rf cf = .error .dimensionError ↔
      (rf = false ∧ (imgRows mask, imgCols mask) ≠ (imgRows cropped, imgCols cropped)) := by
  unfold mainMaskStep
  by_cases hd : (imgRows mask, imgCols mask) = (imgRows cropped, imgCols cropped)
  · rw [if_neg (by simpa using hd)]
    constructor
    · intro h
      exact absurd h (computeSSIM_eqdims_ne_dim cf mask cropped hd)
    · intro h
      exact absurd hd h.2
  · rw [if_pos hd]
    cases rf with
    | false => simp [hd]
    | true =>
        rw [if_neg (by simp)]
        constructor
        · intro h
          have hdims := resizeImgA_dims Interp.area cropped mask
          have : (imgRows mask, imgCols mask)
              = (imgRows (resizeImgA .area cropped (imgRows mask) (imgCols mask)),
                 imgCols (resizeImgA .area cropped (imgRows mask) (imgCols mask))) := by
            rw [hdims.1, hdims.2]
          exact absurd h (computeSSIM_eqdims_ne_dim cf mask _ this)
        · intro h
          cases h.1

/-! ## Crop models (`crop_model4.py` / `crop_model8.py`, `crop_image`) -/

/-- Python `int(q)`: truncation toward zero. -/
def pyInt (q : ℚ) : ℤ := if q < 0 then ⌈q⌉ else ⌊q⌋

/-- The proportional bounds baked into a crop model
(`left, right, top, bottom` as fractions of width/height). -/
structure Geometry where
  left : ℚ
  right : ℚ
  top : ℚ
  bottom : ℚ

/-- The `left = int(w * LEFT)`. -/
def leftPx (g : Geometry) (img : Mat) : ℤ := pyInt ((matCols img : ℚ) * g.left)

/-- The `right = int(w * RIGHT)`. -/
def rightPx (g : Geometry) (img : Mat) : ℤ := pyInt ((matCols img : ℚ) * g.right)

/-- The `top = int(h * TOP)`. -/
def topPx (g : Geometry) (img : Mat) : ℤ := pyInt ((matRows img : ℚ) * g.top)

/-- The `bottom = int(h * BOTTOM)`. -/
def botPx (g : Geometry) (img : Mat) : ℤ := pyInt ((matRows img : ℚ) * g.bottom)

/-- The `x_min = max(0, min(left, right))`. -/
def xMin (g : Geometry) (img : Mat) : ℤ := max 0 (min (leftPx g img) (rightPx g img))

/-- The `y_min = max(0, min(top, bottom))`. -/
def yMin (g : Geometry) (img : Mat) : ℤ := max 0 (min (topPx g img) (botPx g img))

/-- The `x_max = min(w, max(left, right))`. -/
def xMax (g : Geometry) (img : Mat) : ℤ :=
  min (matCols img : ℤ) (max (leftPx g img) (rightPx g img))

/-- The `y_max = min(h, max(top, bottom))`. -/
def yMax (g : Geometry) (img : Mat) : ℤ :=
  min (matRows img : ℤ) (max (topPx g img) (botPx g img))

/-- The "Invalid crop coordinates": the resolved region is empty or inverted. -/
inductive CropError
  | invalidGeometry
  deriving DecidableEq

/-- The `crop_image` of a crop model on a decoded image: resolve the
proportional bounds, reject a degenerate region, and slice
`img[y_min:y_max, x_min:x_max]`. -/
def cropImage (g : Geometry) (img : Mat) : Except CropError Mat :=
  if xMax g img ≤ xMin g img ∨ yMax g img ≤ yMin g img then .error .invalidGeometry
  else .ok (((img.drop (yMin g img).toNat).take ((yMax g img).toNat - (yMin g img).toNat)).map
      fun row => (row.drop (xMin g img).toNat).take ((xMax g img).toNat - (xMin g img).toNat))

/-- The constants of `crop_model4.py`. -/
def geometry4 : Geometry := ⟨15/100, 39/100, 27/100, 327/1000⟩

/-- The constants of `crop_model8.py` (its optional masking step is
deactivated in the pipeline: `apply_mask=False`). -/
def geometry8 : Geometry := ⟨14/100, 71/100, 35/100, 47/100⟩

/-- The slice returned by a successful `crop_image` has exactly
`(y_max - y_min)` rows of `(x_max - x_min)` pixels each. -/
theorem cropImage_ok_dims (g : Geometry) (img : Mat) (c : Mat)
    (hrect : ∀ row ∈ img, row.length = matCols img)
    (h : cropImage g img = .ok c) :
    (c.length : ℤ) = yMax g img - yMin g img ∧
      ∀ row ∈ c, (row.length : ℤ) = xMax g img - xMin g img := by
  unfold cropImage at h
  split_ifs at h with hcond
  push_neg at hcond
  obtain ⟨hx, hy⟩ := hcond
  injection h with h
  subst h
  have hyM : yMax g img ≤ (matRows img : ℤ) := min_le_left _ _
  have hy0 : (0 : ℤ) ≤ yMin g img := le_max_left _ _
  have hxM : xMax g img ≤ (matCols img : ℤ) := min_le_left _ _
  have hx0 : (0 : ℤ) ≤ xMin g img := le_max_left _ _
  constructor
  · rw [List.length_map, List.length_take, List.length_drop]
    have : matRows img = img.length := rfl
    omega
  · intro row hrow
    obtain ⟨r, hr, rfl⟩ := List.mem_map.mp hrow
    have hrimg : r ∈ img := List.mem_of_mem_drop (List.mem_of_mem_take hr)
    have hrlen := hrect r hrimg
    rw [List.length_take, List.length_drop, hrlen]
    omega

/-! ## Model discovery (`_find_crop_models`) and classification
(`_di_type_from_model`) -/

/-- Whether a filename matches the glob pattern `crop_model*.py`. -/
def globMatch (f : Str) : Bool :=
  "crop_model".data.isPrefixOf f && ".py".data.isSuffixOf f && decide (13 ≤ f.length)

/-- The `basename.replace("crop_model", "").replace(".py", "")`. -/
def modelNumOf (f : Str) : Str :=
  replaceAll ".py".data [] (replaceAll "crop_model".data [] f)

/-- The `_find_crop_models`: glob for `crop_model*.py`, sort the filenames
(Python `sorted` = stable lexicographic sort), and pair each with its
extracted model-number string. -/
def findCropModels (files : List Str) : List (Str × Str) :=
  (List.insertionSort (fun a b => strLe a b = true) (files.filter globMatch)).map
    fun f => (modelNumOf f, f)

theorem findCropModels_sorted_files (files : List Str) :
    List.Sorted (fun a b => strLe a b = true) ((findCropModels files).map Prod.snd) := by
  unfold findCropModels
  rw [List.map_map]
  have hcomp : (Prod.snd ∘ fun f : Str => (modelNumOf f, f)) = id := rfl
  rw [hcomp, List.map_id]
  exact List.sorted_insertionSort _ _

/-- The `_di_type_from_model`: parse the identifier as an integer, then the
fixed table `1..5 → CNH`, `6 → CIN`, `7 → RG`, anything else (including a
parse failure) → `None`. -/
def diTypeFromModel (modelNum : Str) : Option Str :=
  match parsePyInt modelNum with
  | none => none
  | some n =>
      if n = 1 ∨ n = 2 ∨ n = 3 ∨ n = 4 ∨ n = 5 then some "CNH".data
      else if n = 6 then some "CIN".data
      else if n = 7 then some "RG".data
      else none

/-! ## The selector `_find_best_crop` -/

/-- Per-model runtime environment for one row: whether the model's
`crop_image` call succeeded (producing the decoded temp crop) and whether
a reference mask `mask_<id>.jpg`/`.JPG` was found and decoded.
`cropImg = none` covers every pre-scoring failure of the model
(module-load error, source decode error, degenerate geometry, write
failure); exactly when `cropImg = some _` the temp crop file exists on
disk. -/
structure ModelEnv where
  cropImg : Option Mat
  maskImg : Option Mat

/-- The score a model contributes, following the statement order in
`_find_best_crop`: crop first (failure skips), then mask lookup (missing
mask skips), then `_compare_ssim(mask, crop, resize=True)` (an exception
skips). -/
def scoreOf (e : ModelEnv) : Option ℚ :=
  match e.cropImg with
  | none => none
  | some c =>
      match e.maskImg with
      | none => none
      | some m => (compareSSIMb m c true).toOption

/-- The `"{}_model{}_cropped.jpg".format(conference_uuid, model_num)` (inside
`TEMP_DIR`, which is a fixed prefix and therefore omitted). -/
def cropPath (uuid num : Str) : Str :=
  uuid ++ "_model".data ++ num ++ "_cropped.jpg".data

/-- Errors escaping `_find_best_crop`: the explicit
"No valid crop model produced a result" exception, or an `OSError`
propagating from an `os.remove` in the cleanup loop. -/
inductive RowError
  | noValidCrop
  | removeFailed (path : Str)
  deriving DecidableEq

/-- The running-maximum scan (`best_score = -1.0` initially; a candidate
replaces the best iff `score > best_score`). -/
def scanBest : List (Str × ModelEnv) → ℚ → Option Str → ℚ × Option Str
  | [], b, bn => (b, bn)
  | (num, e) :: rest, b, bn =>
      match scoreOf e with
      | none => scanBest rest b bn
      | some s => if b < s then scanBest rest s (some num) else scanBest rest b bn

/-- The temp crop files on disk after the model loop: one per model whose
`crop_image` succeeded. -/
def initFiles (uuid : Str) (models : List (Str × ModelEnv)) : List Str :=
  models.filterMap fun m =>
    if m.2.cropImg.isSome then some (cropPath uuid m.1) else none

/-- The cleanup loop over `temp_crops`: delete every existing non-winning
temp crop; `os.remove` is not guarded, so its failure aborts the loop. -/
def cleanupLoop (removeOk : Str → Bool) (bestPath : Str) :
    List Str → List Str → Except RowError (List Str)
  | [], files => .ok files
  | p :: rest, files =>
      if p ≠ bestPath ∧ p ∈ files then
        if removeOk p then cleanupLoop removeOk bestPath rest (files.erase p)
        else .error (.removeFailed p)
      else cleanupLoop removeOk bestPath rest files

/-- The `_find_best_crop`, with the final state of the temp directory made
explicit: scan all models for the best score, raise `noValidCrop` when no
model scored, otherwise run the cleanup loop and return
`(best_crop_path, best_model_num, best_score)` together with the temp
files still on disk. -/
def runSelector (uuid : Str) (removeOk : Str → Bool) (models : List (Str × ModelEnv)) :
    Except RowError ((Str × Str × ℚ) × List Str) :=
  match scanBest models (-1) none with
  | (_, none) => .error .noValidCrop
  | (best, some num) =>
      match cleanupLoop removeOk (cropPath uuid num) (models.map fun m => cropPath uuid m.1)
          (initFiles uuid models) with
      | .error e => .error e
      | .ok files => .ok ((cropPath uuid num, num, best), files)

/-- The value `_find_best_crop` returns to its caller. -/
def findBestCrop (uuid : Str) (removeOk : Str → Bool) (models : List (Str × ModelEnv)) :
    Except RowError (Str × Str × ℚ) :=
  (runSelector uuid removeOk models).map Prod.fst

theorem scanBest_cons (num : Str) (e : ModelEnv) (rest : List (Str × ModelEnv))
    (b : ℚ) (bn : Option Str) :
    scanBest ((num, e) :: rest) b bn =
      match scoreOf e with
      | none => scanBest rest b bn
      | some s => if b < s then scanBest rest s (some num) else scanBest rest b bn := rfl

theorem scanBest_cons_none {num : Str} {e : ModelEnv} {rest : List (Str × ModelEnv)}
    {b : ℚ} {bn : Option Str} (h : scoreOf e = none) :
    scanBest ((num, e) :: rest) b bn = scanBest rest b bn := by
  rw [scanBest_cons, h]

theorem scanBest_cons_some {num : Str} {e : ModelEnv} {rest : List (Str × ModelEnv)}
    {b : ℚ} {bn : Option Str} {s : ℚ} (h : scoreOf e = some s) :
    scanBest ((num, e) :: rest) b bn =
      if b < s then scanBest rest s (some num) else scanBest rest b bn := by
  rw [scanBest_cons, h]

/-- A score the selector actually recorded is strictly above the `-1.0`
sentinel, because it is a mean of per-window SSIM values of 8-bit data. -/
theorem scoreOf_some_gt (e : ModelEnv) (s : ℚ) (h : scoreOf e = some s) : -1 < s := by
  unfold scoreOf at h
  cases hc : e.cropImg with
  | none => rw [hc] at h; cases h
  | some c =>
      rw [hc] at h
      dsimp only at h
      cases hm : e.maskImg with
      | none => rw [hm] at h; cases h
      | some m =>
          rw [hm] at h
          dsimp only at h
          cases hcmp : compareSSIMb m c true with
          | error e2 => rw [hcmp] at h; cases h
          | ok q =>
              rw [hcmp] at h
              simp only [Except.toOption] at h
              injection h with h
              subst h
              exact compareSSIMb_ok_gt m c true q hcmp

theorem scanBest_bn_some (l : List (Str × ModelEnv)) (b : ℚ) (n : Str) :
    ∃ s m, scanBest l b (some n) = (s, some m) := by
  induction l generalizing b n with
  | nil => exact ⟨b, n, rfl⟩
  | cons hd rest ih =>
      obtain ⟨num, e⟩ := hd
      cases h : scoreOf e with
      | none => rw [scanBest_cons_none h]; exact ih b n
      | some s =>
          rw [scanBest_cons_some h]
          by_cases hbs : b < s
          · rw [if_pos hbs]; exact ih s num
          · rw [if_neg hbs]; exact ih b n

/-- The scan ends with no best model iff every score seen is at most the
initial bound. -/
theorem scanBest_none_iff (l : List (Str × ModelEnv)) (b : ℚ) :
    (scanBest l b none).2 = none ↔ ∀ m ∈ l, ∀ s, scoreOf m.2 = some s → s ≤ b := by
  induction l generalizing b with
  | nil => simp [scanBest]
  | cons hd rest ih =>
      obtain ⟨num, e⟩ := hd
      cases h : scoreOf e with
      | none =>
          rw [scanBest_cons_none h, ih b]
          constructor
          · intro hall m hm s hs
            rcases List.mem_cons.mp hm with rfl | hm
            · rw [h] at hs; cases hs
            · exact hall m hm s hs
          · intro hall m hm s hs
            exact hall m (List.mem_cons_of_mem _ hm) s hs
      | some s =>
          rw [scanBest_cons_some h]
          by_cases hbs : b < s
          · rw [if_pos hbs]
            obtain ⟨s2, m2, heq⟩ := scanBest_bn_some rest s num
            rw [heq]
            constructor
            · intro hc; cases hc
            · intro hall
              exfalso
              have := hall (num, e) (List.mem_cons_self _ _) s h
              linarith
          · rw [if_neg hbs, ih b]
            constructor
            · intro hall m hm q hq
              rcases List.mem_cons.mp hm with rfl | hm
              · rw [h] at hq
                injection hq with hq
                subst hq
                linarith [le_of_not_lt hbs]
              · exact hall m hm q hq
            · intro hall m hm q hq
              exact hall m (List.mem_cons_of_mem _ hm) q hq

/-- Correctness of the running-maximum scan: the final score bounds every
score in the list, and (unless the initial candidate survived) the winner
is the first entry achieving the final score — every strictly earlier
entry scored strictly less, which is exactly the `score > best_score`
tie-keeping rule. -/
theorem scanBest_correct (l : List (Str × ModelEnv)) (b : ℚ) (bn : Option Str)
    (s : ℚ) (num : Str) (h : scanBest l b bn = (s, some num)) :
    (∀ m ∈ l, ∀ q, scoreOf m.2 = some q → q ≤ s) ∧
      ((bn = some num ∧ s = b) ∨
        ∃ l₁ e l₂, l = l₁ ++ (num, e) :: l₂ ∧ scoreOf e = some s ∧ b < s ∧
          ∀ m ∈ l₁, ∀ q, scoreOf m.2 = some q → q < s) := by
  induction l generalizing b bn with
  | nil =>
      simp only [scanBest] at h
      injection h with h1 h2
      subst h1
      refine ⟨?_, Or.inl ⟨h2, rfl⟩⟩
      intro m hm
      cases hm
  | cons hd rest ih =>
      obtain ⟨n0, e0⟩ := hd
      cases h0 : scoreOf e0 with
      | none =>
          rw [scanBest_cons_none h0] at h
          obtain ⟨hall, hcase⟩ := ih b bn h
          constructor
          · intro m hm q hq
            rcases List.mem_cons.mp hm with rfl | hm
            · rw [h0] at hq; cases hq
            · exact hall m hm q hq
          · rcases hcase with hl | ⟨l₁, e, l₂, heq, hsc, hlt, hearly⟩
            · exact Or.inl hl
            · refine Or.inr ⟨(n0, e0) :: l₁, e, l₂, by rw [heq]; rfl, hsc, hlt, ?_⟩
              intro m hm q hq
              rcases List.mem_cons.mp hm with rfl | hm
              · rw [h0] at hq; cases hq
              · exact hearly m hm q hq
      | some q0 =>
          rw [scanBest_cons_some h0] at h
          by_cases hb : b < q0
          · rw [if_pos hb] at h
            obtain ⟨hall, hcase⟩ := ih q0 (some n0) h
            have hq0s : q0 ≤ s := by
              rcases hcase with ⟨_, rfl⟩ | ⟨_, _, _, _, _, hlt, _⟩
              · exact le_refl _
              · exact le_of_lt hlt
            constructor
            · intro m hm q hq
              rcases List.mem_cons.mp hm with rfl | hm
              · rw [h0] at hq
                injection hq with hq
                subst hq
                exact hq0s
              · exact hall m hm q hq
            · rcases hcase with ⟨hbn, hsq⟩ | ⟨l₁, e, l₂, heq, hsc, hlt, hearly⟩
              · injection hbn with hbn
                subst hbn
                subst hsq
                exact Or.inr ⟨[], e0, rest, rfl, h0, hb, by intro m hm; cases hm⟩
              · refine Or.inr ⟨(n0, e0) :: l₁, e, l₂, by rw [heq]; rfl, hsc,
                  lt_trans hb hlt, ?_⟩
                intro m hm q hq
                rcases List.mem_cons.mp hm with rfl | hm
                · rw [h0] at hq
                  injection hq with hq
                  subst hq
                  exact hlt
                · exact hearly m hm q hq
          · rw [if_neg hb] at h
            obtain ⟨hall, hcase⟩ := ih b bn h
            have hbs : b ≤ s := by
              rcases hcase with ⟨_, rfl⟩ | ⟨_, _, _, _, _, hlt, _⟩
              · exact le_refl _
              · exact le_of_lt hlt
            constructor
            · intro m hm q hq
              rcases List.mem_cons.mp hm with rfl | hm
              · rw [h0] at hq
                injection hq with hq
                subst hq
                linarith [le_of_not_lt hb]
              · exact hall m hm q hq
            · rcases hcase with hl | ⟨l₁, e, l₂, heq, hsc, hlt, hearly⟩
              · exact Or.inl hl
              · refine Or.inr ⟨(n0, e0) :: l₁, e, l₂, by rw [heq]; rfl, hsc, hlt, ?_⟩
                intro m hm q hq
                rcases List.mem_cons.mp hm with rfl | hm
                · rw [h0] at hq
                  injection hq with hq
                  subst hq
                  linarith [le_of_not_lt hb]
                · exact hearly m hm q hq

/-- Inserting a model that contributes no score leaves the scan unchanged. -/
theorem scanBest_skip (l₁ l₂ : List (Str × ModelEnv)) (num : Str) (e : ModelEnv)
    (h : scoreOf e = none) (b : ℚ) (bn : Option Str) :
    scanBest (l₁ ++ (num, e) :: l₂) b bn = scanBest (l₁ ++ l₂) b bn := by
  induction l₁ generalizing b bn with
  | nil =>
      simp only [List.nil_append]
      exact scanBest_cons_none h
  | cons hd rest ih =>
      obtain ⟨n0, e0⟩ := hd
      simp only [List.cons_append]
      cases h0 : scoreOf e0 with
      | none => rw [scanBest_cons_none h0, scanBest_cons_none h0]; exact ih b bn
      | some s =>
          rw [scanBest_cons_some h0, scanBest_cons_some h0]
          by_cases hb : b < s
          · rw [if_pos hb, if_pos hb]; exact ih s (some n0)
          · rw [if_neg hb, if_neg hb]; exact ih b bn

theorem cleanupLoop_ok_all (removeOk : Str → Bool) (bestPath : Str)
    (temps : List Str) (hrm : ∀ p, removeOk p = true) :
    ∀ files, ∃ fs, cleanupLoop removeOk bestPath temps files = .ok fs := by
  induction temps with
  | nil => intro files; exact ⟨files, rfl⟩
  | cons t rest ih =>
      intro files
      unfold cleanupLoop
      by_cases h1 : t ≠ bestPath ∧ t ∈ files
      · rw [if_pos h1, if_pos (hrm t)]
        exact ih (files.erase t)
      · rw [if_neg h1]
        exact ih files

theorem cleanupLoop_error_shape (removeOk : Str → Bool) (bestPath : Str) :
    ∀ (temps files : List Str) (e : RowError),
    cleanupLoop removeOk bestPath temps files = .error e →
    ∃ p, e = .removeFailed p ∧ removeOk p = false := by
  intro temps
  induction temps with
  | nil => intro files e h; cases h
  | cons t rest ih =>
      intro files e h
      unfold cleanupLoop at h
      by_cases h1 : t ≠ bestPath ∧ t ∈ files
      · rw [if_pos h1] at h
        by_cases h2 : removeOk t = true
        · rw [if_pos h2] at h
          exact ih _ e h
        · rw [if_neg h2] at h
          injection h with h
          exact ⟨t, h.symm, Bool.not_eq_true _ ▸ (by simpa using h2)⟩
      · rw [if_neg h1] at h
        exact ih _ e h

theorem filter_erase_ne (files : List Str) (t best : Str) (ht : t ≠ best) :
    (files.erase t).filter (fun p => p = best) = files.filter (fun p => p = best) := by
  induction files with
  | nil => rfl
  | cons a fs ih =>
      rw [List.erase_cons]
      by_cases hat : a = t
      · rw [if_pos (by simp [hat])]
        subst hat
        have hdec : (decide (a = best)) = false := by simp [ht]
        simp [List.filter_cons, hdec]
      · rw [if_neg (by simp [hat])]
        simp only [List.filter_cons]
        rw [ih]

theorem nodup_filter_single (files : List Str) (best : Str)
    (hnd : files.Nodup) (hmem : best ∈ files) :
    files.filter (fun p => p = best) = [best] := by
  induction files with
  | nil => cases hmem
  | cons a fs ih =>
      by_cases hab : a = best
      · subst hab
        have hnotin : a ∉ fs := (List.nodup_cons.mp hnd).1
        have hnil : fs.filter (fun p => p = a) = [] := by
          apply List.filter_eq_nil_iff.mpr
          intro p hp
          simp only [decide_eq_true_eq]
          intro hc
          exact hnotin (hc ▸ hp)
        simp [List.filter_cons, hnil]
      · have hmem2 : best ∈ fs := by
          rcases List.mem_cons.mp hmem with heq | hmem2
          · exact absurd heq.symm hab
          · exact hmem2
        have hdec : (decide (a = best)) = false := by simp [hab]
        simp only [List.filter_cons, hdec, if_false, ite_false, cond_false]
        exact ih (List.nodup_cons.mp hnd).2 hmem2

/-- When the cleanup loop completes, the surviving temp files are exactly
the occurrences of the winner's path (every other file whose deletion the
loop was responsible for has been removed). -/
theorem cleanupLoop_ok_files (removeOk : Str → Bool) (bestPath : Str) :
    ∀ (temps files fs : List Str),
    files.Nodup → (∀ p ∈ files, p ≠ bestPath → p ∈ temps) →
    cleanupLoop removeOk bestPath temps files = .ok fs →
    fs = files.filter (fun p => p = bestPath) := by
  intro temps
  induction temps with
  | nil =>
      intro files fs hnd hsub h
      injection h with h
      rw [← h]
      have hall : ∀ p ∈ files, p = bestPath := by
        intro p hp
        by_contra hne
        exact absurd (hsub p hp hne) (List.not_mem_nil p)
      symm
      apply List.filter_eq_self.mpr
      intro p hp
      simp [hall p hp]
  | cons t rest ih =>
      intro files fs hnd hsub h
      unfold cleanupLoop at h
      by_cases h1 : t ≠ bestPath ∧ t ∈ files
      · rw [if_pos h1] at h
        by_cases h2 : removeOk t = true
        · rw [if_pos h2] at h
          have := ih (files.erase t) fs (hnd.erase t) ?_ h
          · rw [this, filter_erase_ne files t bestPath h1.1]
          · intro p hp hpb
            have hmem := (List.Nodup.mem_erase_iff hnd).mp hp
            have := hsub p hmem.2 hpb
            rcases List.mem_cons.mp this with rfl | hrest
            · exact absurd rfl hmem.1
            · exact hrest
        · rw [if_neg h2] at h
          cases h
      · rw [if_neg h1] at h
        apply ih files fs hnd ?_ h
        intro p hp hpb
        have := hsub p hp hpb
        rcases List.mem_cons.mp this with rfl | hrest
        · push_neg at h1
          exact absurd hp (h1 hpb)
        · exact hrest

theorem initFiles_sublist (uuid : Str) (models : List (Str × ModelEnv)) :
    List.Sublist (initFiles uuid models) (models.map fun m => cropPath uuid m.1) := by
  induction models with
  | nil => exact List.Sublist.refl _
  | cons m rest ih =>
      unfold initFiles at ih ⊢
      rw [List.filterMap_cons, List.map_cons]
      by_cases hm : m.2.cropImg.isSome
      · rw [if_pos hm]
        exact List.Sublist.cons₂ _ ih
      · rw [if_neg hm]
        exact List.Sublist.cons _ ih

theorem mem_initFiles_of_scored (uuid : Str) (models : List (Str × ModelEnv))
    (num : Str) (e : ModelEnv) (s : ℚ) (hmem : (num, e) ∈ models)
    (hs : scoreOf e = some s) : cropPath uuid num ∈ initFiles uuid models := by
  have hcrop : e.cropImg.isSome := by
    unfold scoreOf at hs
    cases hc : e.cropImg with
    | none => rw [hc] at hs; cases hs
    | some c => simp
  apply List.mem_filterMap.mpr
  exact ⟨(num, e), hmem, by rw [if_pos hcrop]⟩

theorem runSelector_scan_none (uuid : Str) (removeOk : Str → Bool)
    {models : List (Str × ModelEnv)} {b : ℚ}
    (h : scanBest models (-1) none = (b, none)) :
    runSelector uuid removeOk models = .error .noValidCrop := by
  unfold runSelector
  rw [h]

theorem runSelector_scan_some (uuid : Str) (removeOk : Str → Bool)
    {models : List (Str × ModelEnv)} {b : ℚ} {num : Str}
    (h : scanBest models (-1) none = (b, some num)) :
    runSelector uuid removeOk models =
      (match cleanupLoop removeOk (cropPath uuid num)
          (models.map fun m => cropPath uuid m.1) (initFiles uuid models) with
      | .error e => .error e
      | .ok files => .ok ((cropPath uuid num, num, b), files)) := by
  unfold runSelector
  rw [h]

/-- The `_find_best_crop` raises "No valid crop model produced a result"
exactly when no model contributed a score. -/
theorem findBestCrop_noValid_iff (uuid : Str) (removeOk : Str → Bool)
    (models : List (Str × ModelEnv)) :
    findBestCrop uuid removeOk models = .error .noValidCrop ↔
      ∀ m ∈ models, scoreOf m.2 = none := by
  unfold findBestCrop
  cases hscan : scanBest models (-1) none with
  | mk b bn =>
      cases bn with
      | none =>
          rw [runSelector_scan_none uuid removeOk hscan]
          constructor
          · intro _ m hm
            cases hsc : scoreOf m.2 with
            | none => rfl
            | some s =>
                exfalso
                have hnone : (scanBest models (-1) none).2 = none := by rw [hscan]
                have hle := (scanBest_none_iff models (-1)).mp hnone m hm s hsc
                have hgt := scoreOf_some_gt m.2 s hsc
                linarith
          · intro _; rfl
      | some num =>
          rw [runSelector_scan_some uuid removeOk hscan]
          have hsome : (scanBest models (-1) none).2 = some num := by rw [hscan]
          constructor
          · intro h
            exfalso
            cases hcl : cleanupLoop removeOk (cropPath uuid num)
                (models.map fun m => cropPath uuid m.1) (initFiles uuid models) with
            | error e =>
                rw [hcl] at h
                dsimp only at h
                injection h with h
                obtain ⟨p, hp, _⟩ := cleanupLoop_error_shape removeOk _ _ _ _ hcl
                rw [hp] at h
                cases h
            | ok files =>
                rw [hcl] at h
                dsimp only at h
                cases h
          · intro hall
            exfalso
            have hn : (scanBest models (-1) none).2 = none := by
              apply (scanBest_none_iff models (-1)).mpr
              intro m hm s hs
              rw [hall m hm] at hs
              cases hs
            rw [hsome] at hn
            cases hn

/-- With at least one scored model and a cooperative filesystem,
`_find_best_crop` returns a result. -/
theorem findBestCrop_ok_of_scored (uuid : Str) (removeOk : Str → Bool)
    (models : List (Str × ModelEnv)) (hrm : ∀ p, removeOk p = true)
    (hex : ∃ m ∈ models, (scoreOf m.2).isSome) :
    ∃ r, findBestCrop uuid removeOk models = .ok r := by
  unfold findBestCrop
  cases hscan : scanBest models (-1) none with
  | mk b bn =>
      cases bn with
      | none =>
          exfalso
          obtain ⟨m, hm, hsome⟩ := hex
          obtain ⟨s, hs⟩ := Option.isSome_iff_exists.mp hsome
          have hnone : (scanBest models (-1) none).2 = none := by rw [hscan]
          have := (scanBest_none_iff models (-1)).mp hnone m hm s hs
          have hgt := scoreOf_some_gt m.2 s hs
          linarith
      | some num =>
          rw [runSelector_scan_some uuid removeOk hscan]
          obtain ⟨fs, hfs⟩ := cleanupLoop_ok_all removeOk (cropPath uuid num)
            (models.map fun m => cropPath uuid m.1) hrm (initFiles uuid models)
          rw [hfs]
          exact ⟨_, rfl⟩

/-- With a cooperative filesystem the selector's returned value is fully
determined by the scan. -/
theorem findBestCrop_transparent (uuid : Str) (removeOk : Str → Bool)
    (models : List (Str × ModelEnv)) (hrm : ∀ p, removeOk p = true) :
    findBestCrop uuid removeOk models =
      (match scanBest models (-1) none with
      | (_, none) => .error .noValidCrop
      | (best, some num) => .ok (cropPath uuid num, num, best)) := by
  cases hscan : scanBest models (-1) none with
  | mk b bn =>
      unfold findBestCrop
      cases bn with
      | none => rw [runSelector_scan_none uuid removeOk hscan]; rfl
      | some num =>
          rw [runSelector_scan_some uuid removeOk hscan]
          obtain ⟨fs, hfs⟩ := cleanupLoop_ok_all removeOk (cropPath uuid num)
            (models.map fun m => cropPath uuid m.1) hrm (initFiles uuid models)
          rw [hfs]
          rfl

/-- When `_find_best_crop` returns normally, the winner's path is derived
from the winning model number and the winner's temp crop is the only temp
crop left on disk. -/
theorem runSelector_ok_files (uuid : Str) (removeOk : Str → Bool)
    (models : List (Str × ModelEnv)) (p num : Str) (s : ℚ) (fs : List Str)
    (hnd : (models.map fun m => cropPath uuid m.1).Nodup)
    (h : runSelector uuid removeOk models = .ok ((p, num, s), fs)) :
    p = cropPath uuid num ∧ fs = [cropPath uuid num] := by
  cases hscan : scanBest models (-1) none with
  | mk b bn =>
      cases bn with
      | none =>
          rw [runSelector_scan_none uuid removeOk hscan] at h
          cases h
      | some num2 =>
          rw [runSelector_scan_some uuid removeOk hscan] at h
          cases hcl : cleanupLoop removeOk (cropPath uuid num2)
              (models.map fun m => cropPath uuid m.1) (initFiles uuid models) with
          | error e => rw [hcl] at h; cases h
          | ok files =>
              rw [hcl] at h
              dsimp only at h
              injection h with h
              injection h with ha hb
              injection ha with ha1 ha2
              injection ha2 with hnum hs
              subst hnum
              subst hb
              subst hs
              refine ⟨ha1.symm, ?_⟩
              obtain ⟨hall, hcase⟩ := scanBest_correct models (-1) none b num2 hscan
              rcases hcase with ⟨hbn, _⟩ | ⟨l₁, e, l₂, heq, hsc, _, _⟩
              · cases hbn
              · have hmem : (num2, e) ∈ models := by
                  rw [heq]
                  exact List.mem_append_right _ (List.mem_cons_self _ _)
                have hbest : cropPath uuid num2 ∈ initFiles uuid models :=
                  mem_initFiles_of_scored uuid models num2 e b hmem hsc
                have hndInit : (initFiles uuid models).Nodup :=
                  List.Nodup.sublist (initFiles_sublist uuid models) hnd
                have := cleanupLoop_ok_files removeOk (cropPath uuid num2) _ _ files
                  hndInit
                  (fun q hq _ => (initFiles_sublist uuid models).subset hq) hcl
                rw [this, nodup_filter_single _ _ hndInit hbest]

/-- A remove-failure error from `_find_best_crop` names a path whose
deletion actually failed. -/
theorem runSelector_error_remove (uuid : Str) (removeOk : Str → Bool)
    (models : List (Str × ModelEnv)) (q : Str)
    (h : runSelector uuid removeOk models = .error (.removeFailed q)) :
    removeOk q = false := by
  cases hscan : scanBest models (-1) none with
  | mk b bn =>
      cases bn with
      | none =>
          rw [runSelector_scan_none uuid removeOk hscan] at h
          injection h with h
          cases h
      | some num =>
          rw [runSelector_scan_some uuid removeOk hscan] at h
          cases hcl : cleanupLoop removeOk (cropPath uuid num)
              (models.map fun m => cropPath uuid m.1) (initFiles uuid models) with
          | error e =>
              rw [hcl] at h
              dsimp only at h
              injection h with h
              obtain ⟨p2, hp2, hro⟩ := cleanupLoop_error_shape removeOk _ _ _ _ hcl
              rw [hp2] at h
              injection h with h
              subst h
              exact hro
          | ok files =>
              rw [hcl] at h
              cases h

/-! ## Concrete fixtures for witnesses and counterexamples -/

/-- A constant `r × c` BGR image. -/
def constMat (r c v : ℕ) : Mat := List.replicate r (List.replicate c (v, v, v))

/-- A 7×7 black image. -/
def z7 : Mat := constMat 7 7 0

/-- A 6×6 black image (one pixel short of the SSIM window). -/
def z6 : Mat := constMat 6 6 0

/-- The 7×7 zero grayscale image. -/
def gz7 : GrayMat := List.replicate 7 (List.replicate 7 0)

theorem ssimWin_zeros (p : List (ℚ × ℚ)) (hp : ∀ q ∈ p, q = (0, 0)) :
    ssimWin p = 1 := by
  have h0 : ∀ (f : ℚ × ℚ → ℚ), f (0, 0) = 0 → (p.map f).sum = 0 := by
    intro f hf
    apply List.sum_eq_zero
    intro x hx
    obtain ⟨q, hq, rfl⟩ := List.mem_map.mp hx
    rw [hp q hq, hf]
  have h1 : sfst p = 0 := h0 (fun q => q.1) rfl
  have h2 : ssnd p = 0 := h0 (fun q => q.2) rfl
  have h3 : sff p = 0 := h0 (fun q => q.1 * q.1) (by norm_num)
  have h4 : sss p = 0 := h0 (fun q => q.2 * q.2) (by norm_num)
  have h5 : sfs p = 0 := h0 (fun q => q.1 * q.2) (by norm_num)
  simp only [ssimWin, vx, vy, vxy, ux, uy]
  rw [h1, h2, h3, h4, h5]
  norm_num [ssimC1, ssimC2]

theorem windowAt_zeros (g : GrayMat) (hz : ∀ row ∈ g, ∀ x ∈ row, x = 0) (i j : ℕ) :
    ∀ x ∈ windowAt g i j, x = 0 := by
  intro x hx
  simp only [windowAt, List.mem_flatten, List.mem_map, List.mem_range] at hx
  obtain ⟨l, ⟨di, _, rfl⟩, hxl⟩ := hx
  obtain ⟨dj, _, rfl⟩ := List.mem_map.mp hxl
  have hval : (g.getD (i + di) []).getD (j + dj) 0 = 0 := by
    rcases Nat.lt_or_ge (i + di) g.length with hlt | hge
    · have hrow : g.getD (i + di) [] ∈ g := by
        rw [List.getD_eq_getElem g [] hlt]
        exact List.getElem_mem hlt
      rcases Nat.lt_or_ge (j + dj) (g.getD (i + di) []).length with hlt2 | hge2
      · have hmem : (g.getD (i + di) []).getD (j + dj) 0 ∈ g.getD (i + di) [] := by
          rw [List.getD_eq_getElem _ 0 hlt2]
          exact List.getElem_mem hlt2
        exact hz _ hrow _ hmem
      · exact List.getD_eq_default _ 0 hge2
    · rw [List.getD_eq_default g [] hge]
      rfl
  rw [hval]
  norm_num

theorem winScores_ones (ga gb : GrayMat) (hza : ∀ row ∈ ga, ∀ x ∈ row, x = 0)
    (hzb : ∀ row ∈ gb, ∀ x ∈ row, x = 0) : ∀ s ∈ winScores ga gb, s = 1 := by
  intro s hs
  simp only [winScores, List.mem_map] at hs
  obtain ⟨w, hw, rfl⟩ := hs
  obtain ⟨hw1, hw2⟩ := List.of_mem_zip hw
  obtain ⟨i1, j1, h1⟩ := mem_windows ga w.1 hw1
  obtain ⟨i2, j2, h2⟩ := mem_windows gb w.2 hw2
  apply ssimWin_zeros
  intro q hq
  obtain ⟨hqa, hqb⟩ := List.of_mem_zip hq
  have hx := windowAt_zeros ga hza i1 j1 q.1 (h1 ▸ hqa)
  have hy := windowAt_zeros gb hzb i2 j2 q.2 (h2 ▸ hqb)
  exact Prod.ext hx hy

theorem ssimPair_zeros (ga gb : GrayMat) (hza : ∀ row ∈ ga, ∀ x ∈ row, x = 0)
    (hzb : ∀ row ∈ gb, ∀ x ∈ row, x = 0) (hne : winScores ga gb ≠ []) :
    ssimPair ga gb = 1 := by
  have hrep : winScores ga gb = List.replicate (winScores ga gb).length 1 :=
    List.eq_replicate_of_mem (winScores_ones ga gb hza hzb)
  have hlen : (winScores ga gb).length ≠ 0 := fun hc =>
    hne (List.eq_nil_of_length_eq_zero hc)
  unfold ssimPair
  rw [hrep, List.sum_replicate, List.length_replicate, nsmul_eq_mul, mul_one]
  exact div_self (by exact_mod_cast hlen)

theorem winScores_gz7_ne : winScores gz7 gz7 ≠ [] := by
  have hlen : (winScores gz7 gz7).length = 1 := by decide
  intro hc
  rw [hc] at hlen
  cases hlen

theorem ssimExc_gz7 : ssimExc gz7 gz7 = .ok 1 := by
  unfold ssimExc
  rw [if_neg (by simp), if_neg (by decide)]
  congr 1
  exact ssimPair_zeros gz7 gz7 (by decide) (by decide) winScores_gz7_ne

theorem toGrayM_z7_eq : toGrayM z7 = gz7 := by decide

theorem compareSSIMb_z77 : compareSSIMb z7 z7 true = .ok 1 := by
  unfold compareSSIMb normImg2
  rw [if_neg (by simp), toGrayM_z7_eq]
  exact ssimExc_gz7

theorem compareSSIMb_z76 : compareSSIMb z7 z6 true = .ok 1 := by
  unfold compareSSIMb normImg2
  rw [if_pos ⟨rfl, by decide⟩]
  have h1 : resizeMat .area z6 (matRows z7) (matCols z7) = z7 := by decide
  rw [h1, toGrayM_z7_eq]
  exact ssimExc_gz7

theorem compareSSIMb_z67 : compareSSIMb z6 z7 true = .error .windowError := by
  unfold compareSSIMb normImg2
  rw [if_pos ⟨rfl, by decide⟩]
  have h1 : resizeMat .area z7 (matRows z6) (matCols z6) = z6 := by decide
  rw [h1]
  unfold ssimExc
  rw [if_neg (by simp), if_pos (by decide)]

/-- A model whose crop and mask are both present and identical: it scores
exactly `1`. -/
def envZ : ModelEnv := ⟨some z7, some z7⟩

/-- A model whose crop succeeded (so its temp file exists) but whose mask
is missing: it is skipped without scoring. -/
def envCropOnly : ModelEnv := ⟨some z7, none⟩

/-- A model whose crop attempt failed: skipped, and no temp file exists. -/
def envFail : ModelEnv := ⟨none, none⟩

theorem scoreOf_envZ : scoreOf envZ = some 1 := by
  unfold scoreOf envZ
  dsimp only
  rw [compareSSIMb_z77]
  rfl

theorem scoreOf_envCropOnly : scoreOf envCropOnly = none := rfl

theorem scoreOf_envFail : scoreOf envFail = none := rfl

theorem scan_envZ_envCropOnly (n1 n2 : Str) :
    scanBest [(n1, envZ), (n2, envCropOnly)] (-1) none = (1, some n1) := by
  rw [scanBest_cons_some scoreOf_envZ, if_pos (by norm_num),
    scanBest_cons_none scoreOf_envCropOnly]
  rfl

theorem scan_envCropOnly_envZ (n1 n2 : Str) :
    scanBest [(n1, envCropOnly), (n2, envZ)] (-1) none = (1, some n2) := by
  rw [scanBest_cons_none scoreOf_envCropOnly, scanBest_cons_some scoreOf_envZ,
    if_pos (by norm_num)]
  rfl

theorem scan_single_envZ (n1 : Str) :
    scanBest [(n1, envZ)] (-1) none = (1, some n1) := by
  rw [scanBest_cons_some scoreOf_envZ, if_pos (by norm_num)]
  rfl

theorem findBestCrop_single_envZ :
    findBestCrop "u".data (fun _ => true) [("1".data, envZ)]
      = .ok (cropPath "u".data "1".data, "1".data, 1) := by
  rw [findBestCrop_transparent "u".data (fun _ => true) _ (fun _ => rfl),
    scan_single_envZ "1".data]

/-! ## Claim theorems -/

/-- C1 (amended).  `_find_best_crop` raises `NoValidCropError` ("No
valid crop model produced a result") if and only if no candidate was
scored at all; and whenever at least one candidate was scored *and every
cleanup deletion succeeds*, a selection result is returned.  The original
claim's unconditional "a SelectionResult is returned whenever at least one
model scored" is refuted by `c1_counterexample`: the cleanup loop's
`os.remove` is unguarded, so a deletion failure propagates instead. -/
theorem c1_noValidCrop_iff_no_scored (uuid : Str) (removeOk : Str → Bool)
    (models : List (Str × ModelEnv)) :
    (findBestCrop uuid removeOk models = .error .noValidCrop ↔
      ∀ m ∈ models, scoreOf m.2 = none) ∧
    ((∃ m ∈ models, (scoreOf m.2).isSome) → (∀ p, removeOk p = true) →
      ∃ r, findBestCrop uuid removeOk models = .ok r) :=
  ⟨findBestCrop_noValid_iff uuid removeOk models,
   fun hex hrm => findBestCrop_ok_of_scored uuid removeOk models hrm hex⟩

/-- Witness for C1: one scored model, deletions all succeed, a result is
returned. -/
theorem c1_witness :
    ∃ r, findBestCrop "u".data (fun _ => true) [("1".data, envZ)] = .ok r :=
  (c1_noValidCrop_iff_no_scored "u".data (fun _ => true) [("1".data, envZ)]).2
    ⟨("1".data, envZ), List.mem_cons_self _ _,
      by show (scoreOf envZ).isSome = true; rw [scoreOf_envZ]; rfl⟩
    (fun _ => rfl)

/-- Counterexample for C1 as stated: model "1" was successfully scored
(score `1`), yet `_find_best_crop` does not return a `SelectionResult` —
deleting model "2"'s leftover temp crop fails and the `OSError`
propagates. -/
theorem c1_counterexample :
    scoreOf envZ = some 1 ∧
    findBestCrop "u".data (fun p => decide (p ≠ cropPath "u".data "2".data))
        [("1".data, envZ), ("2".data, envCropOnly)]
      = .error (.removeFailed (cropPath "u".data "2".data)) := by
  refine ⟨scoreOf_envZ, ?_⟩
  unfold findBestCrop
  rw [runSelector_scan_some "u".data (fun p => decide (p ≠ cropPath "u".data "2".data))
    (scan_envZ_envCropOnly "1".data "2".data)]
  have hcl : cleanupLoop (fun p => decide (p ≠ cropPath "u".data "2".data))
      (cropPath "u".data "1".data)
      ([("1".data, envZ), ("2".data, envCropOnly)].map fun m => cropPath "u".data m.1)
      (initFiles "u".data [("1".data, envZ), ("2".data, envCropOnly)])
      = .error (.removeFailed (cropPath "u".data "2".data)) := by rfl
  rw [hcl]
  rfl

/-- C2 (amended).  During the running-maximum scan a candidate
replaces the current best only on a strictly greater score
(`score > best_score`), so the selector returns the *earliest-evaluated*
candidate among those achieving the maximal score: every model strictly
before the winner in evaluation order scored strictly less.  The original
claim's gloss that the tie winner is the *numerically* lower model
identifier is refuted by `c2_counterexample`: evaluation order is
lexicographic on the filename, so on a tie between models "10" and "2"
the selector returns "10". -/
theorem c2_strict_max_first (uuid : Str) (removeOk : Str → Bool)
    (models : List (Str × ModelEnv)) (p num : Str) (s : ℚ)
    (h : findBestCrop uuid removeOk models = .ok (p, num, s)) :
    (∀ m ∈ models, ∀ q, scoreOf m.2 = some q → q ≤ s) ∧
    ∃ l₁ e l₂, models = l₁ ++ (num, e) :: l₂ ∧ scoreOf e = some s ∧
      ∀ m ∈ l₁, ∀ q, scoreOf m.2 = some q → q < s := by
  unfold findBestCrop at h
  cases hscan : scanBest models (-1) none with
  | mk b bn =>
      cases bn with
      | none =>
          rw [runSelector_scan_none uuid removeOk hscan] at h
          cases h
      | some num2 =>
          rw [runSelector_scan_some uuid removeOk hscan] at h
          cases hcl : cleanupLoop removeOk (cropPath uuid num2)
              (models.map fun m => cropPath uuid m.1) (initFiles uuid models) with
          | error e2 => rw [hcl] at h; dsimp only at h; cases h
          | ok files =>
              rw [hcl] at h
              dsimp only at h
              injection h with h
              injection h with hp h
              injection h with hnum hb
              subst hnum
              subst hb
              obtain ⟨hall, hcase⟩ := scanBest_correct models (-1) none b num2 hscan
              rcases hcase with ⟨hbn, _⟩ | ⟨l₁, e, l₂, heq, hsc, _, hearly⟩
              · cases hbn
              · exact ⟨hall, l₁, e, l₂, heq, hsc, hearly⟩

/-- Witness for C2. -/
theorem c2_witness :
    (∀ m ∈ [("1".data, envZ)], ∀ q, scoreOf m.2 = some q → q ≤ 1) ∧
    ∃ l₁ e l₂, [("1".data, envZ)] = l₁ ++ ("1".data, e) :: l₂ ∧ scoreOf e = some 1 ∧
      ∀ m ∈ l₁, ∀ q, scoreOf m.2 = some q → q < 1 :=
  c2_strict_max_first "u".data (fun _ => true) [("1".data, envZ)]
    (cropPath "u".data "1".data) "1".data 1 findBestCrop_single_envZ

/-- Counterexample for C2 as stated: models "10" and "2" (discovered from
`crop_model10.py`, `crop_model2.py`) are evaluated in lexicographic
filename order ("10" first) and both score exactly `1`; the selector
returns model "10", not the numerically lower identifier 2. -/
theorem c2_counterexample :
    (findCropModels ["crop_model2.py".data, "crop_model10.py".data]).map Prod.fst
      = ["10".data, "2".data] ∧
    scoreOf envZ = some 1 ∧
    parsePyInt "10".data = some 10 ∧ parsePyInt "2".data = some 2 ∧ (2 : ℤ) < 10 ∧
    findBestCrop "u".data (fun _ => true)
        ((findCropModels ["crop_model2.py".data, "crop_model10.py".data]).map
          fun nf => (nf.1, envZ))
      = .ok (cropPath "u".data "10".data, "10".data, 1) := by
  refine ⟨by decide, scoreOf_envZ, by decide, by decide, by decide, ?_⟩
  have hmap : (findCropModels ["crop_model2.py".data, "crop_model10.py".data]).map
      (fun nf => (nf.1, envZ)) = [("10".data, envZ), ("2".data, envZ)] := by
    have h1 : findCropModels ["crop_model2.py".data, "crop_model10.py".data]
        = [("10".data, "crop_model10.py".data), ("2".data, "crop_model2.py".data)] := by
      decide
    rw [h1]
    rfl
  rw [hmap]
  have hscan : scanBest [("10".data, envZ), ("2".data, envZ)] (-1) none
      = (1, some "10".data) := by
    rw [scanBest_cons_some scoreOf_envZ, if_pos (by norm_num),
      scanBest_cons_some scoreOf_envZ, if_neg (by norm_num)]
    rfl
  rw [findBestCrop_transparent "u".data (fun _ => true) _ (fun _ => rfl), hscan]

/-- C3 (amended).  `_find_crop_models` returns the discovered
`crop_model*.py` files sorted lexicographically by filename (Python
`sorted` on strings), which is the selector's evaluation order; this
coincides with ascending numeric identifier order only while identifiers
have equal digit count.  The original "sorted by numeric identifier"
claim is refuted by `c3_counterexample`. -/
theorem c3_lexicographic_order (files : List Str) :
    List.Sorted (fun a b => strLe a b = true) ((findCropModels files).map Prod.snd) :=
  findCropModels_sorted_files files

/-- Counterexample for C3 as stated: with models 2 and 10 present, the
evaluation sequence is "10" before "2" — not ascending numeric order. -/
theorem c3_counterexample :
    (findCropModels ["crop_model2.py".data, "crop_model10.py".data]).map Prod.fst
      = ["10".data, "2".data] ∧
    parsePyInt "10".data = some 10 ∧ parsePyInt "2".data = some 2 ∧
    ¬ ((10 : ℤ) ≤ 2) := by decide

/-- C4 (amended).  When `_find_best_crop` returns normally (with
distinct per-model temp paths), every non-winning candidate's temp
artifact has been removed and only the winner's remains; but deletion is
*not* guarded: an `os.remove` failure propagates to the caller as an
error naming a path whose removal actually failed (the original
"logged and never propagated" is refuted by `c4_counterexample`). -/
theorem c4_cleanup_semantics (uuid : Str) (removeOk : Str → Bool)
    (models : List (Str × ModelEnv)) :
    (∀ (p num : Str) (s : ℚ) (fs : List Str),
      (models.map fun m => cropPath uuid m.1).Nodup →
      runSelector uuid removeOk models = .ok ((p, num, s), fs) →
      p = cropPath uuid num ∧ fs = [p]) ∧
    (∀ q : Str, runSelector uuid removeOk models = .error (.removeFailed q) →
      removeOk q = false) := by
  constructor
  · intro p num s fs hnd h
    obtain ⟨h1, h2⟩ := runSelector_ok_files uuid removeOk models p num s fs hnd h
    refine ⟨h1, ?_⟩
    rw [h1]
    exact h2
  · intro q h
    exact runSelector_error_remove uuid removeOk models q h

theorem runSelector_eval_ok :
    runSelector "u".data (fun _ => true) [("1".data, envZ), ("3".data, envCropOnly)]
      = .ok ((cropPath "u".data "1".data, "1".data, 1), [cropPath "u".data "1".data]) := by
  rw [runSelector_scan_some "u".data (fun _ => true)
    (scan_envZ_envCropOnly "1".data "3".data)]
  have hcl : cleanupLoop (fun _ : Str => true) (cropPath "u".data "1".data)
      ([("1".data, envZ), ("3".data, envCropOnly)].map fun m => cropPath "u".data m.1)
      (initFiles "u".data [("1".data, envZ), ("3".data, envCropOnly)])
      = .ok [cropPath "u".data "1".data] := by rfl
  rw [hcl]

/-- Witness for C4: a run with a winner ("1") and a discarded candidate
("3", whose temp file was removed); only the winner's artifact remains. -/
theorem c4_witness :
    cropPath "u".data "1".data = cropPath "u".data "1".data ∧
      [cropPath "u".data "1".data] = [cropPath "u".data "1".data] :=
  (c4_cleanup_semantics "u".data (fun _ => true)
      [("1".data, envZ), ("3".data, envCropOnly)]).1
    (cropPath "u".data "1".data) "1".data 1 [cropPath "u".data "1".data]
    (by decide) runSelector_eval_ok

/-- Counterexample for C4 as stated: deleting the non-winning candidate's
temp file fails and the failure propagates out of `_find_best_crop` as an
error — it is not caught and logged. -/
theorem c4_counterexample :
    scoreOf envZ = some 1 ∧
    runSelector "u".data (fun p => decide (p ≠ cropPath "u".data "3".data))
        [("1".data, envZ), ("3".data, envCropOnly)]
      = .error (.removeFailed (cropPath "u".data "3".data)) := by
  refine ⟨scoreOf_envZ, ?_⟩
  rw [runSelector_scan_some "u".data (fun p => decide (p ≠ cropPath "u".data "3".data))
    (scan_envZ_envCropOnly "1".data "3".data)]
  have hcl : cleanupLoop (fun p => decide (p ≠ cropPath "u".data "3".data))
      (cropPath "u".data "1".data)
      ([("1".data, envZ), ("3".data, envCropOnly)].map fun m => cropPath "u".data m.1)
      (initFiles "u".data [("1".data, envZ), ("3".data, envCropOnly)])
      = .error (.removeFailed (cropPath "u".data "3".data)) := by rfl
  rw [hcl]

/-- C5 (confirmed).  `_di_type_from_model` is a fixed total lookup on
the parsed identifier: values 1..5 map to "CNH", 6 to "CIN", 7 to "RG",
and every other identifier — numeric out of range (such as 99) or
non-numeric — yields `None` (unclassified) without raising. -/
theorem c5_classification_table :
    (∀ (k : ℤ) (s : Str), 1 ≤ k → k ≤ 5 → parsePyInt s = some k →
      diTypeFromModel s = some "CNH".data) ∧
    (∀ s : Str, parsePyInt s = some 6 → diTypeFromModel s = some "CIN".data) ∧
    (∀ s : Str, parsePyInt s = some 7 → diTypeFromModel s = some "RG".data) ∧
    (∀ (s : Str) (n : ℤ), parsePyInt s = some n → (n < 1 ∨ 7 < n) →
      diTypeFromModel s = none) ∧
    (∀ s : Str, parsePyInt s = none → diTypeFromModel s = none) ∧
    diTypeFromModel "99".data = none ∧ diTypeFromModel "foo".data = none := by
  refine ⟨?_, ?_, ?_, ?_, ?_, by decide, by decide⟩
  · intro k s h1 h5 hp
    unfold diTypeFromModel
    rw [hp]
    dsimp only
    rw [if_pos (by omega)]
  · intro s hp
    unfold diTypeFromModel
    rw [hp]
    dsimp only
    rw [if_neg (by omega), if_pos rfl]
  · intro s hp
    unfold diTypeFromModel
    rw [hp]
    dsimp only
    rw [if_neg (by omega), if_neg (by omega), if_pos rfl]
  · intro s n hp hr
    unfold diTypeFromModel
    rw [hp]
    dsimp only
    rw [if_neg (by omega), if_neg (by omega), if_neg (by omega)]
  · intro s hp
    unfold diTypeFromModel
    rw [hp]

/-- Witness for C5 at concrete identifiers. -/
theorem c5_witness :
    diTypeFromModel "3".data = some "CNH".data ∧
    diTypeFromModel "6".data = some "CIN".data ∧
    diTypeFromModel "7".data = some "RG".data ∧
    diTypeFromModel " 42 ".data = none :=
  ⟨c5_classification_table.1 3 "3".data (by norm_num) (by norm_num) (by decide),
   c5_classification_table.2.1 "6".data (by decide),
   c5_classification_table.2.2.1 "7".data (by decide),
   c5_classification_table.2.2.2.1 " 42 ".data 42 (by decide) (by omega)⟩

/-- C6 (amended).  Per-model failures are isolated: a model whose
evaluation contributes no score (crop raised, mask missing, or scoring
raised) is skipped — provided the cleanup deletions succeed, the selector
behaves exactly as if that model were absent, and the row still succeeds
whenever at least one other model produced a valid scored candidate.  The
original unconditional "the row still succeeds" is refuted by
`c6_counterexample`: a failing deletion of the skipped model's leftover
temp file fails the row despite another valid candidate. -/
theorem c6_per_model_isolation (uuid : Str) (removeOk : Str → Bool)
    (l₁ l₂ : List (Str × ModelEnv)) (num : Str) (e : ModelEnv)
    (hfail : scoreOf e = none) (hrm : ∀ p, removeOk p = true) :
    findBestCrop uuid removeOk (l₁ ++ (num, e) :: l₂)
      = findBestCrop uuid removeOk (l₁ ++ l₂) ∧
    ((∃ m ∈ l₁ ++ l₂, (scoreOf m.2).isSome) →
      ∃ r, findBestCrop uuid removeOk (l₁ ++ (num, e) :: l₂) = .ok r) := by
  constructor
  · rw [findBestCrop_transparent uuid removeOk _ hrm,
      findBestCrop_transparent uuid removeOk _ hrm,
      scanBest_skip l₁ l₂ num e hfail]
  · intro hex
    apply findBestCrop_ok_of_scored uuid removeOk _ hrm
    obtain ⟨m, hm, hsome⟩ := hex
    refine ⟨m, ?_, hsome⟩
    rcases List.mem_append.mp hm with h | h
    · exact List.mem_append_left _ h
    · exact List.mem_append_right _ (List.mem_cons_of_mem _ h)

/-- Witness for C6: inserting a failed model "9" after the scored model
"1" changes nothing, and the row still succeeds. -/
theorem c6_witness :
    findBestCrop "u".data (fun _ => true) [("1".data, envZ), ("9".data, envFail)]
      = findBestCrop "u".data (fun _ => true) [("1".data, envZ)] ∧
    ∃ r, findBestCrop "u".data (fun _ => true) [("1".data, envZ), ("9".data, envFail)]
      = .ok r := by
  have h := c6_per_model_isolation "u".data (fun _ => true) [("1".data, envZ)] []
    "9".data envFail scoreOf_envFail (fun _ => rfl)
  exact ⟨h.1, h.2 ⟨("1".data, envZ), by simp,
    by show (scoreOf envZ).isSome = true; rw [scoreOf_envZ]; rfl⟩⟩

/-- Counterexample for C6 as stated: model "1" fails (its mask is
missing) and model "2" produces a valid scored candidate, but the row
does not succeed — the skipped model left a temp file whose deletion
fails, and the error propagates. -/
theorem c6_counterexample :
    scoreOf envCropOnly = none ∧ scoreOf envZ = some 1 ∧
    findBestCrop "u".data (fun p => decide (p ≠ cropPath "u".data "1".data))
        [("1".data, envCropOnly), ("2".data, envZ)]
      = .error (.removeFailed (cropPath "u".data "1".data)) := by
  refine ⟨rfl, scoreOf_envZ, ?_⟩
  unfold findBestCrop
  rw [runSelector_scan_some "u".data (fun p => decide (p ≠ cropPath "u".data "1".data))
    (scan_envCropOnly_envZ "1".data "2".data)]
  have hcl : cleanupLoop (fun p => decide (p ≠ cropPath "u".data "1".data))
      (cropPath "u".data "2".data)
      ([("1".data, envCropOnly), ("2".data, envZ)].map fun m => cropPath "u".data m.1)
      (initFiles "u".data [("1".data, envCropOnly), ("2".data, envZ)])
      = .error (.removeFailed (cropPath "u".data "1".data)) := by rfl
  rw [hcl]
  rfl

/-- C7 (confirmed).  For every proportional geometry and image for
which `crop_image` succeeds (exactly the non-degenerate resolutions), the
returned region's pixel dimensions are `(x_max - x_min, y_max - y_min)`
where the bounds are the proportional constants times width/height,
truncated to integers, clamped into `[0, w]`/`[0, h]` and reordered so
min ≤ max. -/
theorem c7_crop_dimensions (g : Geometry) (img : Mat) (c : Mat)
    (hrect : ∀ row ∈ img, row.length = matCols img)
    (h : cropImage g img = .ok c) :
    (c.length : ℤ) = yMax g img - yMin g img ∧
      ∀ row ∈ c, (row.length : ℤ) = xMax g img - xMin g img :=
  cropImage_ok_dims g img c hrect h

/-- A 10×10 black test image. -/
def img10 : Mat := constMat 10 10 0

theorem c7_bounds_img10 :
    xMin geometry4 img10 = 1 ∧ xMax geometry4 img10 = 3 ∧
      yMin geometry4 img10 = 2 ∧ yMax geometry4 img10 = 3 := by
  have hw : matCols img10 = 10 := by decide
  have hh : matRows img10 = 10 := by decide
  have hl : leftPx geometry4 img10 = 1 := by
    simp only [leftPx, pyInt, geometry4, hw]
    norm_num
  have hr : rightPx geometry4 img10 = 3 := by
    simp only [rightPx, pyInt, geometry4, hw]
    norm_num
  have ht : topPx geometry4 img10 = 2 := by
    simp only [topPx, pyInt, geometry4, hh]
    norm_num
  have hb : botPx geometry4 img10 = 3 := by
    simp only [botPx, pyInt, geometry4, hh]
    norm_num
  refine ⟨?_, ?_, ?_, ?_⟩
  · rw [xMin, hl, hr]; decide
  · rw [xMax, hl, hr, hw]; decide
  · rw [yMin, ht, hb]; decide
  · rw [yMax, ht, hb, hh]; decide

theorem cropImage4_img10 :
    cropImage geometry4 img10 = .ok [List.replicate 2 ((0 : ℕ), (0 : ℕ), (0 : ℕ))] := by
  obtain ⟨h1, h2, h3, h4⟩ := c7_bounds_img10
  unfold cropImage
  rw [if_neg (by rw [h1, h2, h3, h4]; decide)]
  rw [h1, h2, h3, h4]
  congr 1

/-- Witness for C7 on `crop_model4`'s geometry and a 10×10 image: the
slice is 1 row (`y` in `[2, 3)`) of 2 pixels (`x` in `[1, 3)`). -/
theorem c7_witness :
    ((([List.replicate 2 ((0 : ℕ), (0 : ℕ), (0 : ℕ))] : Mat).length : ℤ)
        = yMax geometry4 img10 - yMin geometry4 img10) ∧
      ∀ row ∈ ([List.replicate 2 ((0 : ℕ), (0 : ℕ), (0 : ℕ))] : Mat),
        (row.length : ℤ) = xMax geometry4 img10 - xMin geometry4 img10 :=
  c7_crop_dimensions geometry4 img10 _ (by decide) cropImage4_img10

/-- C8 (amended).  `compute_ssim` from `compare_ssim.py` — which does
no resizing — is symmetric under input order for a fixed mode, in value
and in error behaviour.  The batch scorer `_compare_ssim` with resizing
enabled is *not* symmetric (it normalises the second image to the first's
shape); `c8_counterexample` exhibits a 7×7/6×6 pair scored `1` one way
and raising the win_size error the other way. -/
theorem c8_compute_ssim_symmetric (m : Bool) (A B : Img) :
    computeSSIM m A B = computeSSIM m B A :=
  computeSSIM_comm m A B

/-- Counterexample for C8 as stated about the resizing scorer. -/
theorem c8_counterexample :
    compareSSIMb z7 z6 true = .ok 1 ∧
    compareSSIMb z6 z7 true = .error .windowError ∧
    compareSSIMb z7 z6 true ≠ compareSSIMb z6 z7 true := by
  refine ⟨compareSSIMb_z76, compareSSIMb_z67, ?_⟩
  rw [compareSSIMb_z76, compareSSIMb_z67]
  simp

/-- C9 (confirmed).  When the shapes differ and resizing is enabled,
the scorer scores the first image against the second resized (INTER_AREA)
to the first's shape; and it fails with the dimension-mismatch error
exactly when resizing is disabled and the shapes differ — both for the
batch `_compare_ssim` and for the per-mask step of `compare_ssim.main`. -/
theorem c9_resize_then_score :
    (∀ a b : Mat,
      ((matRows a, matCols a) ≠ (matRows b, matCols b) →
        compareSSIMb a b true =
          ssimExc (toGrayM a) (toGrayM (resizeMat .area b (matRows a) (matCols a)))) ∧
      (∀ r : Bool, compareSSIMb a b r = .error .dimensionError ↔
        (r = false ∧ (matRows a, matCols a) ≠ (matRows b, matCols b)))) ∧
    (∀ (cropped mask : Img) (rf cf : Bool),
      ((imgRows mask, imgCols mask) ≠ (imgRows cropped, imgCols cropped) → rf = true →
        mainMaskStep cropped mask rf cf =
          computeSSIM cf mask (resizeImgA .area cropped (imgRows mask) (imgCols mask))) ∧
      (mainMaskStep cropped mask rf cf = .error .dimensionError ↔
        (rf = false ∧ (imgRows mask, imgCols mask) ≠ (imgRows cropped, imgCols cropped)))) := by
  constructor
  · intro a b
    constructor
    · intro hd
      unfold compareSSIMb normImg2
      rw [if_pos ⟨rfl, hd⟩]
    · exact compareSSIMb_dim_iff a b
  · intro cropped mask rf cf
    constructor
    · intro hd hrf
      subst hrf
      unfold mainMaskStep
      rw [if_pos hd, if_neg (by simp)]
    · exact mainMaskStep_dim_iff cropped mask rf cf

/-- Witness for C9 on a 7×7/6×6 pair. -/
theorem c9_witness :
    compareSSIMb z7 z6 true =
      ssimExc (toGrayM z7) (toGrayM (resizeMat .area z6 (matRows z7) (matCols z7))) ∧
    (compareSSIMb z7 z6 false = .error .dimensionError ↔
      (false = false ∧ (matRows z7, matCols z7) ≠ (matRows z6, matCols z6))) :=
  ⟨(c9_resize_then_score.1 z7 z6).1 (by decide),
   (c9_resize_then_score.1 z7 z6).2 false⟩

/-- C10 (amended).  In colour mode `compute_ssim` pairs the channel
planes with `zip`, so differing channel counts raise no error by
themselves: whenever the two images agree spatially (equal height/width,
both at least the 7-pixel window) and share at least one channel, the
result is the arithmetic mean of the per-channel SSIM over exactly the
`min` common channels.  The unconditional "raises no error" is refuted by
`c10_counterexample` (spatially incompatible images still raise). -/
theorem c10_zip_common_channels (A B : Img)
    (hr : imgRows A = imgRows B) (hc : imgCols A = imgCols B)
    (h7r : 7 ≤ imgRows A) (h7c : 7 ≤ imgCols A)
    (hch : 1 ≤ min (imgChans A) (imgChans B)) :
    computeSSIM true A B =
      .ok (((((splitImg A).zip (splitImg B)).map fun pr => ssimPair pr.1 pr.2).sum)
        / (min (imgChans A) (imgChans B) : ℚ)) := by
  have hpairs : ∀ pr ∈ (splitImg A).zip (splitImg B),
      ssimExc pr.1 pr.2 = .ok (ssimPair pr.1 pr.2) := by
    intro pr hpr
    obtain ⟨h1, h2⟩ := List.of_mem_zip hpr
    obtain ⟨k1, hk1⟩ := mem_splitImg A pr.1 h1
    obtain ⟨k2, hk2⟩ := mem_splitImg B pr.2 h2
    unfold ssimExc
    rw [if_neg (by
      rw [hk1, hk2, channelOf_rows, channelOf_cols, channelOf_rows, channelOf_cols,
        hr, hc]
      simp)]
    rw [if_neg (by
      rw [hk1, channelOf_rows, channelOf_cols]
      omega)]
  unfold computeSSIM
  rw [if_pos rfl]
  rw [scoreChannels_ok_of _ hpairs]
  dsimp only
  have hlen : (((splitImg A).zip (splitImg B)).map fun pr => ssimPair pr.1 pr.2).length
      = min (imgChans A) (imgChans B) := by
    rw [List.length_map, List.length_zip, splitImg_length, splitImg_length]
  rw [if_neg (by rw [hlen]; omega)]
  rw [hlen, Nat.cast_min]

/-- A 7×7 3-channel black image. -/
def imgA3 : Img := List.replicate 7 (List.replicate 7 [0, 0, 0])

/-- A 7×7 single-channel black image. -/
def imgB1 : Img := List.replicate 7 (List.replicate 7 [0])

/-- An 8×8 single-channel black image. -/
def imgB18 : Img := List.replicate 8 (List.replicate 8 [0])

/-- Witness for C10: a 3-channel image against a 1-channel image of the
same 7×7 size scores without error over the single common channel. -/
theorem c10_witness :
    computeSSIM true imgA3 imgB1 =
      .ok (((((splitImg imgA3).zip (splitImg imgB1)).map
          fun pr => ssimPair pr.1 pr.2).sum)
        / (min (imgChans imgA3) (imgChans imgB1) : ℚ)) :=
  c10_zip_common_channels imgA3 imgB1 (by decide) (by decide) (by decide) (by decide)
    (by decide)

/-- Counterexample for C10 as stated: a 3-channel 7×7 image against a
1-channel 8×8 image has differing channel counts and *does* raise (the
per-channel `ssim` call rejects the spatial mismatch). -/
theorem c10_counterexample :
    imgChans imgA3 = 3 ∧ imgChans imgB18 = 1 ∧
    computeSSIM true imgA3 imgB18 = .error .dimensionError := by
  refine ⟨by decide, by decide, ?_⟩
  rfl

end CropId
